import Mathlib

/-!
Verification development for the `isoparser` repository (ISO 9660 / SUSP /
Rock Ridge parser).  The Python sources `source.py`, `record.py`,
`rockridge.py` and `iso.py` are shallowly embedded below: the mutable
`Source` (a byte window with a cursor over a sector-addressed disc image)
becomes explicit state passing in an `Except` monad, Python exceptions
become `PyErr` values, and Python's `while` loops become fuel-indexed
recursions whose guard is checked before the fuel so that a loop whose
guard fails needs no fuel.

The repository's `susp.py` module (the base SUSP entry classes `SP`, `CE`,
`ST`, `ER`, the `UnknownEntry` fallback, `susp_assert` and the registry
dispatch `SUSP_Entry.unpack`) is not among the available sources; those
definitions are modelled from the specification (sections 3 and 4.E) and
are marked `Modelled from the spec:` in their doc comments.  Everything
else is translated from the Python sources.

The sector cache of `Source.seek` (source.py lines 210-242) only changes
which sectors are fetched, never the bytes that end up in the working
buffer, so `seek` is embedded as the corresponding slice of the disc
image.
-/

deriving instance DecidableEq for Except

namespace Isoparser

/-- One on-disc byte.  Stored values are expected to lie in `0..255`. -/
abbrev Byte := Nat

/-- ASCII bytes of a string literal, for writing concrete byte lists. -/
def strBytes (s : String) : List Byte := s.data.map Char.toNat

/-- Python exceptions that the embedded code can raise.  `sourceError`
covers `SourceError` (buffer under-run, both-endian mismatch, rewind
under-run), `suspError` covers `susp.SUSPError`, and `nameError`,
`attributeError`, `assertionError`, `valueError`, `keyError` cover the
corresponding Python built-ins.  `fuelOut` is a modelling artefact of the
fuel-indexed loops and is never produced with sufficient fuel. -/
inductive PyErr where
  | sourceError
  | suspError
  | nameError
  | attributeError
  | assertionError
  | valueError
  | keyError
  | fuelOut
deriving DecidableEq, Repr

/-- `susp_starting_index` takes the Python values `None` / `False` /
a nonnegative integer; `skip 0` is falsy in Python, mirrored wherever the
code tests truthiness. -/
inductive SuspIdx where
  | unknown
  | disabled
  | skip (n : Nat)
deriving DecidableEq, Repr

/-- The `Source` of source.py: the whole disc image, the current working
window (`_buff` contents after the truncation in `seek`), the cursor, and
the SUSP bookkeeping fields set by `ISO.__init__`. -/
structure Source where
  disc : List Byte
  buf : List Byte
  pos : Nat
  susp_starting_index : SuspIdx
  susp_extensions : List (List Byte × Nat)
  rockridge : Bool
deriving DecidableEq, Repr

namespace Source

/-- Advance the cursor by `n` bytes. -/
def advance (s : Source) (n : Nat) : Source := { s with pos := s.pos + n }

/-- `len(self)`: bytes remaining in the window (source.py line 31). -/
def remaining (s : Source) : Nat := s.buf.length - s.pos

/-- `seek(start_sector, length)` (source.py lines 210-242): load `length`
bytes starting at sector `startSector` into the working buffer and reset
the cursor.  The sector cache and `min_fetch` prefetching only affect
which sectors are fetched, not the resulting bytes, so the buffer is the
corresponding slice of the disc. -/
def seek (s : Source) (startSector len : Nat) : Source :=
  { s with buf := (s.disc.drop (startSector * 2048)).take len, pos := 0 }

/-- `save_cursor` (source.py line 244): snapshot the buffer and cursor. -/
def save_cursor (s : Source) : List Byte × Nat := (s.buf, s.pos)

/-- `restore_cursor` (source.py line 247). -/
def restore_cursor (s : Source) (c : List Byte × Nat) : Source :=
  { s with buf := c.1, pos := c.2 }

end Source

/-- `unpack_raw(l)` (source.py lines 49-53): read exactly `n` bytes or
raise `SourceError` when fewer remain. -/
def unpack_raw (s : Source) (n : Nat) : Except PyErr (List Byte × Source) :=
  if n ≤ (s.buf.drop s.pos).length then
    .ok ((s.buf.drop s.pos).take n, s.advance n)
  else .error .sourceError

/-- `unpack_raw` with a Python `int` count.  `cStringIO.read` with a
negative count returns the rest of the buffer and `len(data) < l` can then
never hold, so a negative count reads to the end of the window. -/
def unpack_raw_int (s : Source) (n : Int) : Except PyErr (List Byte × Source) :=
  if n < 0 then .ok (s.buf.drop s.pos, { s with pos := s.buf.length })
  else unpack_raw s n.toNat

/-- `rewind_raw(l)` (source.py lines 44-47). -/
def rewind_raw (s : Source) (n : Nat) : Except PyErr Source :=
  if s.pos < n then .error .sourceError
  else .ok { s with pos := s.pos - n }

/-- `unpack_all()` (source.py line 55): the rest of the window. -/
def unpack_all (s : Source) : Except PyErr (List Byte × Source) :=
  unpack_raw s s.remaining

/-- `unpack_boundary()` (source.py line 58): skip to the next sector
boundary. -/
def unpack_boundary (s : Source) : Except PyErr (List Byte × Source) :=
  unpack_raw s (2048 - s.pos % 2048)

/-- `unpack('B')`: one unsigned byte. -/
def unpackB (s : Source) : Except PyErr (Nat × Source) :=
  match s.buf.drop s.pos with
  | [] => .error .sourceError
  | b :: _ => .ok (b, s.advance 1)

/-- `unpack('2sBB')` as used by `unpack_susp`: a 2-byte signature and two
unsigned bytes. -/
def unpack2sBB (s : Source) : Except PyErr ((List Byte × Nat × Nat) × Source) :=
  match s.buf.drop s.pos with
  | a :: b :: c :: d :: _ => .ok (([a, b], c, d), s.advance 4)
  | _ => .error .sourceError

/-- Little-endian value of a byte list. -/
def leVal : List Byte → Nat
  | [] => 0
  | b :: rest => b + 256 * leVal rest

/-- Big-endian value of a byte list. -/
def beVal (l : List Byte) : Nat := leVal l.reverse

/-- Two's-complement reading of an `n`-byte unsigned value. -/
def toSigned (n : Nat) (v : Nat) : Int :=
  if v < 2 ^ (8 * n - 1) then (v : Int) else (v : Int) - 2 ^ (8 * n)

/-- The single-value struct codes the sources use (`b`,`B`,`h`,`H`,`i`,`I`). -/
inductive SCode where
  | b | B | h | H | i | I
deriving DecidableEq, Repr

namespace SCode

/-- `struct.calcsize` of one code. -/
def size : SCode → Nat
  | .b | .B => 1
  | .h | .H => 2
  | .i | .I => 4

/-- Whether the code is signed. -/
def signed : SCode → Bool
  | .b | .h | .i => true
  | _ => false

end SCode

/-- Interpret `bytes` as one little-endian value of code `c`. -/
def interpLE (c : SCode) (bytes : List Byte) : Int :=
  if c.signed then toSigned c.size (leVal bytes) else (leVal bytes : Int)

/-- Interpret `bytes` as one big-endian value of code `c`. -/
def interpBE (c : SCode) (bytes : List Byte) : Int :=
  if c.signed then toSigned c.size (beVal bytes) else (beVal bytes : Int)

/-- `_unpack_both(st)` for `st = c ++ c` (source.py lines 61-65): unpack
the raw bytes as two values in little-endian layout and as two values in
big-endian layout. -/
def unpackBothRaw (c : SCode) (raw : List Byte) : (Int × Int) × (Int × Int) :=
  ((interpLE c (raw.take c.size), interpLE c ((raw.drop c.size).take c.size)),
   (interpBE c (raw.take c.size), interpBE c ((raw.drop c.size).take c.size)))

/-- `unpack_both(st)` (source.py lines 67-72): read the field twice, take
the little-endian reading of the first copy and the big-endian reading of
the second, and require them to agree. -/
def unpack_both (s : Source) (c : SCode) : Except PyErr (Int × Source) :=
  match unpack_raw s (2 * c.size) with
  | .error e => .error e
  | .ok (raw, s') =>
    let a := (unpackBothRaw c raw).1.1
    let b := (unpackBothRaw c raw).2.2
    if a ≠ b then .error .sourceError else .ok (a, s')

/-- Drop trailing ASCII spaces: Python's `rstrip(' ')`. -/
def rstripSpace (l : List Byte) : List Byte :=
  (l.reverse.dropWhile (· = 32)).reverse

/-- `unpack_string(l)` (source.py lines 74-75). -/
def unpack_string (s : Source) (n : Nat) : Except PyErr (List Byte × Source) :=
  match unpack_raw s n with
  | .error e => .error e
  | .ok (raw, s') => .ok (rstripSpace raw, s')

/-- The directory-form datetime produced by `_unpack_dir_datetime`
(source.py lines 143-147): `datetime.datetime(t0+1900, t1, ..., tz)`. -/
structure DirDatetime where
  year : Nat
  month : Nat
  day : Nat
  hour : Nat
  minute : Nat
  second : Nat
  tzOffsetMin : Int
deriving DecidableEq, Repr

/-- Field ranges enforced by `datetime.datetime`; out-of-range fields
raise `ValueError`.  (Python also checks the day against the month's
length; the development only ever builds dates with day ≤ 28, where the
two checks agree.) -/
def dirDatetimeOk (mo d h mi se : Nat) : Prop :=
  1 ≤ mo ∧ mo ≤ 12 ∧ 1 ≤ d ∧ d ≤ 31 ∧ h ≤ 23 ∧ mi ≤ 59 ∧ se ≤ 59

instance (mo d h mi se : Nat) : Decidable (dirDatetimeOk mo d h mi se) := by
  unfold dirDatetimeOk; infer_instance

/-- `unpack_dir_datetime()` (source.py lines 136-147): seven bytes
`<6Bb`, years since 1900, month, day, hour, minute, second, quarter-hour
timezone offset (signed). -/
def unpack_dir_datetime (s : Source) : Except PyErr (DirDatetime × Source) :=
  match unpack_raw s 7 with
  | .error e => .error e
  | .ok (raw, s') =>
    match raw with
    | [y, mo, d, h, mi, se, tz] =>
      if dirDatetimeOk mo d h mi se then
        .ok (⟨y + 1900, mo, d, h, mi, se, toSigned 1 tz * 15⟩, s')
      else .error .valueError
    | _ => .error .sourceError

/-- A decoded SUSP entry.  `SP`, `CE`, `ST`, `ER` and `Unknown` are the
base entries of `susp.py` (modelled from the spec, section 3); the rest
are the Rock Ridge entries of rockridge.py.  Python attributes that are
only set on some constructor paths (`NM.name`, the `PX` fields) are
`Option`s, `none` meaning the attribute was never assigned. -/
inductive Entry where
  | SP (len_skp : Nat)
  | CE (location offset length : Int)
  | ST
  | ER (ext_id : List Byte) (ext_ver : Nat) (ext_des ext_src : List Byte)
  | RR (flags : Nat)
  | PX (mode nlinks uid gid ino : Option Int)
  | PN (dev_high dev_low : Int)
  | SL (flags : Nat) (path : List Byte)
  | NM (flags : Nat) (name : Option (List Byte))
  | TF (flags : Nat) (stamps : List (List Byte))
  | Unknown (sig : List Byte) (version : Nat) (payload : List Byte)
deriving DecidableEq, Repr

/-- `susp_assert(cond)`: raise `SUSPError` unless `cond` holds. -/
def susp_assert (cond : Prop) [Decidable cond] : Except PyErr Unit :=
  if cond then .ok () else .error .suspError

/-- Modelled from the spec: `susp.SP` carries `len_skp`.  The entry's
payload is three bytes (SUSP framing: two check bytes then `len_skp`);
only `len_skp` is interpreted. -/
def spInit (s : Source) (length : Int) : Except PyErr (Entry × Source) := do
  let _ ← susp_assert (length = 3)
  let (_, s1) ← unpack_raw s 2
  let (k, s2) ← unpackB s1
  .ok (.SP k, s2)

/-- Modelled from the spec: `susp.CE` is a continuation-area pointer with
both-endian `location` (sector), `offset` and `length`. -/
def ceInit (s : Source) (length : Int) : Except PyErr (Entry × Source) := do
  let _ ← susp_assert (length = 24)
  let (loc, s1) ← unpack_both s .I
  let (off, s2) ← unpack_both s1 .I
  let (len, s3) ← unpack_both s2 .I
  .ok (.CE loc off len, s3)

/-- Modelled from the spec: `susp.ST` is the stop entry; it has no
payload. -/
def stInit (s : Source) (length : Int) : Except PyErr (Entry × Source) := do
  let _ ← susp_assert (length = 0)
  .ok (.ST, s)

/-- Modelled from the spec: `susp.ER` is the extension reference with
`ext_id`, `ext_ver` and descriptive fields; the payload is the three
field lengths, the version byte, then the three fields. -/
def erInit (s : Source) (length : Int) : Except PyErr (Entry × Source) := do
  let (lenId, s1) ← unpackB s
  let (lenDes, s2) ← unpackB s1
  let (lenSrc, s3) ← unpackB s2
  let (ver, s4) ← unpackB s3
  let _ ← susp_assert ((length : Int) = 4 + lenId + lenDes + lenSrc)
  let (extId, s5) ← unpack_raw s4 lenId
  let (extDes, s6) ← unpack_raw s5 lenDes
  let (extSrc, s7) ← unpack_raw s6 lenSrc
  .ok (.ER extId ver extDes extSrc, s7)

/-- `RR.__init__` (rockridge.py lines 24-27). -/
def rrInit (s : Source) (length : Int) : Except PyErr (Entry × Source) := do
  let _ ← susp_assert (length = 1)
  let (f, s1) ← unpackB s
  .ok (.RR f, s1)

/-- `PX.__init__` (rockridge.py lines 37-51): four both-endian fields at
length 32, five at length 40, nothing otherwise (the attributes are then
never assigned). -/
def pxInit (s : Source) (length : Int) : Except PyErr (Entry × Source) := do
  if length = 32 then
    let (mode, s1) ← unpack_both s .I
    let (nlinks, s2) ← unpack_both s1 .I
    let (uid, s3) ← unpack_both s2 .I
    let (gid, s4) ← unpack_both s3 .I
    .ok (.PX (some mode) (some nlinks) (some uid) (some gid) none, s4)
  else if length = 40 then
    let (mode, s1) ← unpack_both s .I
    let (nlinks, s2) ← unpack_both s1 .I
    let (uid, s3) ← unpack_both s2 .I
    let (gid, s4) ← unpack_both s3 .I
    let (ino, s5) ← unpack_both s4 .I
    .ok (.PX (some mode) (some nlinks) (some uid) (some gid) (some ino), s5)
  else
    .ok (.PX none none none none none, s)

/-- `PN.__init__` (rockridge.py lines 61-65). -/
def pnInit (s : Source) (length : Int) : Except PyErr (Entry × Source) := do
  let _ ← susp_assert (length = 16)
  let (hi, s1) ← unpack_both s .I
  let (lo, s2) ← unpack_both s1 .I
  .ok (.PN hi lo, s2)

/-- The component classification of `SL.__init__` (rockridge.py lines
91-103): `CURRENT` appends ".", `PARENT` appends "..", `ROOT` appends
nothing (each with an empty-payload assertion), flags 0 or `CONTINUE`
append the nonempty payload, anything else is a SUSP assertion
failure. -/
def slClassify (path : List Byte) (cf cl : Nat) (cc : List Byte) :
    Except PyErr (List Byte) :=
  if cf = 2 then (if cl = 0 then .ok (path ++ [46]) else .error .suspError)
  else if cf = 4 then (if cl = 0 then .ok (path ++ [46, 46]) else .error .suspError)
  else if cf = 8 then (if cl = 0 then .ok path else .error .suspError)
  else if cf = 0 ∨ cf = 1 then (if 0 < cl then .ok (path ++ cc) else .error .suspError)
  else .error .suspError

/-- The separator rule of `SL.__init__` (rockridge.py lines 105-113):
append "/" unless the component carries `CONTINUE`, or it has flags 0,
the cursor reached the entry target and the `SL`-level `CONTINUE` bit is
clear. -/
def slSep (path1 : List Byte) (cf : Nat) (pos target : Int) (slflags : Nat) :
    List Byte :=
  if cf = 1 then path1
  else if cf = 0 ∧ pos = target ∧ slflags &&& 1 = 0 then path1
  else path1 ++ [47]

/-- The component loop of `SL.__init__` (rockridge.py lines 86-113).
`target` is the cursor value at which the entry's payload ends; the guard
`cursor < target` is checked before the fuel. -/
def slCompLoop : Nat → Source → Int → Nat → List Byte →
    Except PyErr (List Byte × Source)
  | 0, s, target, _, path =>
    if (s.pos : Int) < target then .error .fuelOut else .ok (path, s)
  | fuel + 1, s, target, slflags, path =>
    if (s.pos : Int) < target then
      (match unpackB s with
        | .error e => .error e
        | .ok (cf, s1) =>
          match unpackB s1 with
          | .error e => .error e
          | .ok (cl, s2) =>
            match unpack_raw s2 cl with
            | .error e => .error e
            | .ok (cc, s3) =>
              if (s3.pos : Int) ≤ target then
                match slClassify path cf cl cc with
                | .error e => .error e
                | .ok path1 =>
                  slCompLoop fuel s3 target slflags
                    (slSep path1 cf s3.pos target slflags)
              else .error .suspError)
    else .ok (path, s)

/-- `SL.__init__` (rockridge.py lines 80-113). -/
def slInit (s : Source) (length : Int) : Except PyErr (Entry × Source) :=
  if 2 ≤ length then
    match unpackB s with
    | .error e => .error e
    | .ok (fl, s1) =>
      match slCompLoop (length.toNat + 1) s1 ((s.pos : Int) + length) fl [] with
      | .error e => .error e
      | .ok (path, s2) => .ok (.SL fl path, s2)
  else .error .suspError

/-- `NM.__init__` (rockridge.py lines 127-140).  A flags byte outside
`{0, CONTINUE, CURRENT, PARENT}` falls through every branch and leaves
`name` unassigned. -/
def nmInit (s : Source) (length : Int) : Except PyErr (Entry × Source) :=
  if 1 ≤ length then
    match unpackB s with
    | .error e => .error e
    | .ok (f, s1) =>
      match unpack_raw_int s1 (length - 1) with
      | .error e => .error e
      | .ok (content, s2) =>
        if f = 2 then
          if length = 1 then .ok (.NM f (some [46]), s2) else .error .suspError
        else if f = 4 then
          if length = 1 then .ok (.NM f (some [46, 46]), s2) else .error .suspError
        else if f = 0 ∨ f = 1 then
          if 1 < length then .ok (.NM f (some content), s2) else .error .suspError
        else .ok (.NM f none, s2)
  else .error .suspError

/-- `TF.__init__` (rockridge.py lines 181-196): a flags byte, then one
timestamp per set flag bit, 17 raw bytes in long form and the 7 bytes of
a lazy directory datetime in short form (the lazy thunk captures the raw
bytes; conversion happens on attribute access and is not needed here). -/
def tfInit (s : Source) (length : Int) : Except PyErr (Entry × Source) := do
  let _ ← susp_assert (1 ≤ length)
  let (f, s1) ← unpackB s
  let width := if f &&& 128 ≠ 0 then 17 else 7
  let step : (List (List Byte) × Source) → Nat →
      Except PyErr (List (List Byte) × Source) := fun (acc, st) bit =>
    if f &&& bit ≠ 0 then do
      let (raw, st') ← unpack_raw st width
      .ok (acc ++ [raw], st')
    else .ok (acc, st)
  let (t1, sa) ← step ([], s1) 1
  let (t2, sb) ← step (t1, sa) 2
  let (t3, sc) ← step (t2, sb) 4
  let (t4, sd) ← step (t3, sc) 8
  let (t5, se) ← step (t4, sd) 16
  let (t6, sf) ← step (t5, se) 32
  let (t7, sg) ← step (t6, sf) 64
  .ok (.TF f t7, sg)

/-- Modelled from the spec: `susp.UnknownEntry` preserves the raw payload
bytes verbatim. -/
def unknownInit (s : Source) (sig : List Byte) (version : Nat) (length : Int) :
    Except PyErr (Entry × Source) :=
  match unpack_raw_int s length with
  | .error e => .error e
  | .ok (payload, s1) => .ok (.Unknown sig version payload, s1)

/-- The recognized Rock Ridge `(ext_id, ext_ver)` pairs
(rockridge.py lines 3-6). -/
def RRIP_109 : List Byte × Nat := (strBytes "RRIP_1991A", 1)

/-- The IEEE P1282 identification (rockridge.py line 4). -/
def RRIP_112 : List Byte × Nat := (strBytes "IEEE_P1282", 1)

/-- `EXT_VERSIONS` (rockridge.py line 6). -/
def EXT_VERSIONS : List (List Byte × Nat) := [RRIP_109, RRIP_112]

/-- Modelled from the spec: the registry dispatch `SUSP_Entry.unpack`
(section 4.E).  Base entries (`SP`, `CE`, `ST`, `ER`) match regardless of
the current extension; the Rock Ridge entries match only under a
recognized `(ext_id, ext_ver)` per their `_implements` lists (`RR` only
under RRIP 1.09); an unknown key raises `SUSPError` without consuming
bytes. -/
def suspEntryUnpack (s : Source) (ext : Option (List Byte × Nat))
    (sig : List Byte) (ver : Nat) (length : Int) :
    Except PyErr (Entry × Source) :=
  if sig = strBytes "SP" ∧ ver = 1 then spInit s length
  else if sig = strBytes "CE" ∧ ver = 1 then ceInit s length
  else if sig = strBytes "ST" ∧ ver = 1 then stInit s length
  else if sig = strBytes "ER" ∧ ver = 1 then erInit s length
  else
    match ext with
    | some ev =>
      if ev ∈ EXT_VERSIONS then
        if sig = strBytes "RR" ∧ ver = 1 ∧ ev = RRIP_109 then rrInit s length
        else if sig = strBytes "PX" ∧ ver = 1 then pxInit s length
        else if sig = strBytes "PN" ∧ ver = 1 then pnInit s length
        else if sig = strBytes "SL" ∧ ver = 1 then slInit s length
        else if sig = strBytes "NM" ∧ ver = 1 then nmInit s length
        else if sig = strBytes "TF" ∧ ver = 1 then tfInit s length
        else .error .suspError
      else .error .suspError
    | none => .error .suspError

/-- `unpack_susp(maxlen, possible_extension=0)` (source.py lines
186-208), including the `try/except SUSPError` recovery, the fall-through
`UnknownEntry` reconstruction and the final cursor assertion.  When the
`except` branch ran, `new_susp` was never assigned; reaching the `return`
in that state is Python's `UnboundLocalError`, embedded as
`nameError`. -/
def unpack_susp (s : Source) (maxlen : Int) :
    Except PyErr (Option Entry × Source) :=
  if maxlen < 4 then .ok (none, s)
  else
    match unpack2sBB s with
    | .error e => .error e
    | .ok ((sig, length, version), s1) =>
      if maxlen < (length : Int) then
        match rewind_raw s1 4 with
        | .error e => .error e
        | .ok s2 => .ok (none, s2)
      else
        let start := s.pos
        let finish : Source → Option Entry → Except PyErr (Option Entry × Source) :=
          fun s3 newSusp =>
            if s3.pos ≠ start + length then .error .assertionError
            else
              match newSusp with
              | none => .error .nameError
              | some e => .ok (some e, s3)
        let fallback : Source → Except PyErr (Option Entry × Source) :=
          fun s2 =>
            if s2.pos ≠ start + length then
              match unknownInit { s2 with pos := start + 4 } sig version
                  ((length : Int) - 4) with
              | .error e => .error e
              | .ok (u, s3) => finish s3 (some u)
            else finish s2 none
        match suspEntryUnpack s1 (s1.susp_extensions.get? 0) sig version
            ((length : Int) - 4) with
        | .error .suspError => fallback { s1 with pos := start }
        | .error e => .error e
        | .ok (e, s2) =>
          if s2.pos ≠ start + length then
            match unknownInit { s2 with pos := start + 4 } sig version
                ((length : Int) - 4) with
            | .error e' => .error e'
            | .ok (u, s3) => finish s3 (some u)
          else finish s2 (some e)

/-- A parsed directory record (record.py lines 7-56).  `is_hidden` and
`is_directory` keep Python's `flags & bit` integer values. -/
structure Record where
  location : Int
  length : Int
  datetime : DirDatetime
  is_hidden : Nat
  is_directory : Nat
  raw_name : List Byte
  embedded_susp_entries : List Entry
deriving DecidableEq, Repr

/-- The `while True` SUSP loop of `Record.__init__` (record.py lines
44-51): decode entries until none can be parsed or an `ST` is hit. -/
def suspLoop : Nat → Source → Nat → List Entry → Except PyErr (List Entry × Source)
  | 0, _, _, _ => .error .fuelOut
  | fuel + 1, s, target, acc =>
    match unpack_susp s ((target : Int) - s.pos) with
    | .error e => .error e
    | .ok (none, s') => .ok (acc, s')
    | .ok (some .ST, s') => .ok (acc ++ [.ST], s')
    | .ok (some e, s') => suspLoop fuel s' target (acc ++ [e])

/-- The system-use-area logic of `Record.__init__` (record.py lines
32-53): the speculative `SP` probe when `susp_starting_index` is
unknown (a first entry that is not an `SP` is consumed and discarded,
and an `SP` with `len_skp > 7` leaves a local residual skip of
`len_skp - 7`), then — unless SUSP is disabled — the truthy skip prefix
and the SUSP entry loop. -/
def recordSystemArea (s : Source) (target : Nat) (idx : SuspIdx) (fuel : Nat) :
    Except PyErr (List Entry × Source) :=
  let specStep : Except PyErr (List Entry × SuspIdx × Source) :=
    match idx with
    | .unknown =>
      match unpack_susp s ((target : Int) - s.pos) with
      | .error e => .error e
      | .ok (some (.SP k), s') =>
        .ok ([Entry.SP k], (if 7 < k then SuspIdx.skip (k - 7) else .unknown), s')
      | .ok (_, s') => .ok ([], SuspIdx.unknown, s')
    | _ => .ok ([], idx, s)
  match specStep with
  | .error e => .error e
  | .ok (emb0, idx1, s) =>
    if idx1 ≠ .disabled then
      let skipStep : Except PyErr Source :=
        match idx1 with
        | .skip (n + 1) =>
          (match unpack_raw s (n + 1) with
           | .error e => .error e
           | .ok (_, s') => .ok s')
        | _ => .ok s
      match skipStep with
      | .error e => .error e
      | .ok s1 => suspLoop fuel s1 target emb0
    else .ok (emb0, s)

/-- `Record.__init__` (record.py lines 7-56): the fixed ISO 9660 fields,
the raw name (version suffix stripped, `"\x00"` mapped to the empty
name), the parity pad, the speculative `SP` probe when
`susp_starting_index` is unknown, the skip prefix, the SUSP entry loop,
and the final skip to `target`. -/
def recordInit (s : Source) (length : Nat) (idx : SuspIdx) (fuel : Nat) :
    Except PyErr (Record × Source) := do
  let target := s.pos + length
  let (_, s) ← unpackB s
  let (loc, s) ← unpack_both s .I
  let (len, s) ← unpack_both s .I
  let (dt, s) ← unpack_dir_datetime s
  let (flags, s) ← unpackB s
  let (_, s) ← unpackB s
  let (_, s) ← unpackB s
  let (_, s) ← unpack_both s .h
  let (nameLength, s) ← unpackB s
  let (rawStr, s) ← unpack_string s nameLength
  let rawName0 := rawStr.takeWhile (· ≠ 59)
  let rawName := if rawName0 = [0] then [] else rawName0
  let (_, s) ← if nameLength % 2 = 0 then unpack_raw s 1 else pure ([], s)
  let (entries, s) ← recordSystemArea s target idx fuel
  if s.pos ≤ target then do
    let (_, s) ← unpack_raw s (target - s.pos)
    .ok (⟨loc, len, dt, flags &&& 1, flags &&& 2, rawName, entries⟩, s)
  else .error .assertionError

/-- `unpack_record()` (source.py lines 176-184): read the length byte,
rewind and return `None` on zero, otherwise parse the record with the
source's `susp_starting_index` and assert the cursor advanced exactly by
the declared length. -/
def unpack_record (s : Source) (fuel : Nat) :
    Except PyErr (Option Record × Source) := do
  let start := s.pos
  let (length, s1) ← unpackB s
  if length = 0 then do
    let s2 ← rewind_raw s1 1
    .ok (none, s2)
  else do
    let (r, s2) ← recordInit s1 (length - 1) s1.susp_starting_index fuel
    if s2.pos ≠ start + length then .error .assertionError
    else .ok (some r, s2)

/-- Python truthiness of the walk's `target` variable: an `int` is falsy
exactly when it is zero, `None` is falsy. -/
def targTruthy : Option Int → Bool
  | none => false
  | some n => n ≠ 0

/-- The state update after `yield entry` in `susp_entries_unsafe`
(record.py lines 107-112): an `ST` clears the embedded iterator and the
continuation target (but not a pending `CE`); a `CE` becomes the pending
continuation pointer. -/
def postYield (emb : Option (List Entry)) (target : Option Int)
    (ce : Option (Int × Int × Int)) : Entry →
    Option (List Entry) × Option Int × Option (Int × Int × Int)
  | .ST => (none, none, ce)
  | .CE l o n => (emb, target, some (l, o, n))
  | _ => (emb, target, ce)

/-- The loop of `Record.susp_entries_unsafe` (record.py lines 82-112).
`emb` is the embedded iterator (`none` once exhausted or cleared),
`target` the end cursor of the continuation area being scanned, `ce` the
pending continuation pointer.  The loop guard `embedded_iter or target or
ce_entry` is evaluated before the fuel (a Python iterator object is
always truthy; an `int` target is truthy iff nonzero). -/
def walkAux : Nat → Source → Option (List Entry) → Option Int →
    Option (Int × Int × Int) → Except PyErr (List Entry × Source)
  | fuel, s, some l, target, ce =>
    (match fuel with
     | 0 => .error .fuelOut
     | fuel + 1 =>
       match l with
       | [] => walkAux fuel s none target ce
       | e :: rest =>
         let (emb', target', ce') := postYield (some rest) target ce e
         match walkAux fuel s emb' target' ce' with
         | .error er => .error er
         | .ok (tl, s') => .ok (e :: tl, s'))
  | fuel, s, none, target, ce =>
    if targTruthy target then
      match fuel with
      | 0 => .error .fuelOut
      | fuel + 1 =>
        match unpack_susp s (target.getD 0 - s.pos) with
        | .error er => .error er
        | .ok (none, s1) => walkAux fuel s1 none none ce
        | .ok (some e, s1) =>
          let (emb', target', ce') := postYield none target ce e
          match walkAux fuel s1 emb' target' ce' with
          | .error er => .error er
          | .ok (tl, s2) => .ok (e :: tl, s2)
    else
      match ce with
      | some (loc, off, len) =>
        match fuel with
        | 0 => .error .fuelOut
        | fuel + 1 =>
          let s1 := s.seek loc.toNat (off + len).toNat
          match unpack_raw s1 off.toNat with
          | .error er => .error er
          | .ok (_, s2) => walkAux fuel s2 none (some ((s2.pos : Int) + len)) none
      | none => .ok ([], s)

/-- `Record.susp_entries_unsafe` materialized in on-disc order, i.e. the
list `Record.susp_entries` (record.py lines 114-119). -/
def suspEntriesWalk (r : Record) (s : Source) (fuel : Nat) :
    Except PyErr (List Entry × Source) :=
  walkAux fuel s (some r.embedded_susp_entries) none none

/-- The accumulation loop of the `Record.name` property (record.py lines
63-72) over a yielded entry sequence: skip non-`NM` entries, append each
`NM` name, stop after the first `NM` whose `CONTINUE` bit is clear.  An
`NM` whose `name` attribute was never assigned raises `AttributeError`. -/
def nameLoop : List Entry → List Byte → Except PyErr (List Byte)
  | [], acc => .ok acc
  | e :: rest, acc =>
    match e with
    | .NM flags name? =>
      match name? with
      | none => .error .attributeError
      | some nm =>
        if flags &&& 1 = 0 then .ok (acc ++ nm) else nameLoop rest (acc ++ nm)
    | _ => nameLoop rest acc

/-- `Record.name`'s value given the yielded entries: the accumulated `NM`
name, or `raw_name` when it is empty (`return name or self.raw_name`). -/
def nameFromList (entries : List Entry) (rawName : List Byte) :
    Except PyErr (List Byte) :=
  match nameLoop entries [] with
  | .error e => .error e
  | .ok nm => .ok (if nm = [] then rawName else nm)

/-- The `Record.name` property: walk the SUSP entries, then run the name
loop.  (The Python generator is lazy, so a walk failure past the name
loop's early `break` cannot occur there; whenever the walk succeeds the
two agree, and the theorems below only rely on successful walks.) -/
def recordName (r : Record) (s : Source) (fuel : Nat) :
    Except PyErr (List Byte × Source) :=
  match suspEntriesWalk r s fuel with
  | .error e => .error e
  | .ok (entries, s') =>
    match nameFromList entries r.raw_name with
    | .error e => .error e
    | .ok nm => .ok (nm, s')

/-- `Record.current_directory` (record.py lines 193-201): seek the
record's extent and unpack the first record. -/
def currentDirectory (root : Record) (s : Source) (fuel : Nat) :
    Except PyErr (Option Record × Source) :=
  if root.is_directory = 0 then .error .assertionError
  else unpack_record (s.seek root.location.toNat root.length.toNat) fuel

/-- The `(ext_id, ext_ver)` of an `ER` entry, used where `ISO.__init__`
filters `isinstance(e, susp.ER)`. -/
def erExtract : Entry → Option (List Byte × Nat)
  | .ER id ver _ _ => some (id, ver)
  | _ => none

/-- The SUSP/Rock Ridge detection of `ISO.__init__` (iso.py lines 33-39)
given the already-parsed current-directory record of the root: if the
first embedded SUSP entry is an `SP`, set `susp_starting_index` to its
`len_skp`, collect the `ER` entries of the full SUSP chain as
`susp_extensions`, and set `rockridge` when one of them is a recognized
Rock Ridge version; otherwise set `susp_starting_index` to `False`. -/
def isoDetectCore (rr : Record) (s : Source) (fuel : Nat) : Except PyErr Source :=
  match rr.embedded_susp_entries with
  | .SP k :: _ =>
    let s1 := { s with susp_starting_index := .skip k }
    match suspEntriesWalk rr s1 fuel with
    | .error e => .error e
    | .ok (entries, s2) =>
      let exts := entries.filterMap erExtract
      let s3 := { s2 with susp_extensions := exts }
      if exts.any (· ∈ EXT_VERSIONS) then .ok { s3 with rockridge := true }
      else .ok s3
  | _ => .ok { s with susp_starting_index := .disabled }

/-- `ISO.__init__`'s SUSP check (iso.py lines 31-39): parse the root's
current-directory record, then run the detection.  (`unpack_record`
returning `None` would make the Python attribute accesses fail.) -/
def isoDetect (root : Record) (s : Source) (fuel : Nat) : Except PyErr Source := do
  let (rr?, s1) ← currentDirectory root s fuel
  match rr? with
  | none => .error .attributeError
  | some rr => isoDetectCore rr s1 fuel

/-- A record object on the Python heap: the parsed fields plus the
mutable `_content` cache (record.py line 9, filled by the `content`
property). -/
structure RecObj where
  record : Record
  content : Option (List Byte)
deriving DecidableEq, Repr

/-- `_last_cached_child` takes the Python values `None` (never scanned),
`False` (scan exhausted) or a saved cursor offset; `mark 0` is falsy like
Python's `0`. -/
inductive LastCached where
  | initial
  | exhausted
  | mark (n : Nat)
deriving DecidableEq, Repr

/-- The mutable state of a directory record's child lookup: the object
heap (indices are object identities), the `_child_cache` name-to-object
map, `_last_cached_child`, and the shared source. -/
structure DirSt where
  heap : List RecObj
  cache : List (List Byte × Nat)
  lastCached : LastCached
  src : Source
deriving DecidableEq, Repr

/-- Dictionary lookup for `_child_cache`. -/
def lookupAssoc (m : List (List Byte × Nat)) (k : List Byte) : Option Nat :=
  match m with
  | [] => none
  | (k', v) :: rest => if k' = k then some v else lookupAssoc rest k

/-- Dictionary insertion/update for `_child_cache`. -/
def setAssoc (m : List (List Byte × Nat)) (k : List Byte) (v : Nat) :
    List (List Byte × Nat) :=
  match m with
  | [] => [(k, v)]
  | (k', v') :: rest =>
    if k' = k then (k, v) :: rest else (k', v') :: setAssoc rest k v

/-- The `for child in children` loop of `find_child` (record.py lines
178-191) fused with the `_children_unsafe` generator body (lines
149-157): parse the next child (skipping sector boundaries on length-0
records), save the cursor, read `child.name`, restore the cursor, cache
the child, remember the cursor offset, and return on a match — a
non-directory match returns a fresh shallow copy.  On natural exit,
`_last_cached_child` becomes the exhausted sentinel and the `raise
KeyError(... % (child_name, ...))` line runs: when no child was scanned
in this call, `child_name` is unbound and Python raises
`UnboundLocalError` (embedded as `nameError`) instead. -/
def fcLoop (name : List Byte) :
    Nat → DirSt → Option (List Byte) → DirSt × Except PyErr Nat
  | 0, st, _ => (st, .error .fuelOut)
  | fuel + 1, st, lastName =>
    if st.src.remaining = 0 then
      let st' := { st with lastCached := .exhausted }
      match lastName with
      | none => (st', .error .nameError)
      | some _ => (st', .error .keyError)
    else
      match unpack_record st.src fuel with
      | .error e => (st, .error e)
      | .ok (none, s1) =>
        match unpack_boundary s1 with
        | .error e => ({ st with src := s1 }, .error e)
        | .ok (_, s2) => fcLoop name fuel { st with src := s2 } lastName
      | .ok (some child, s1) =>
        let idx := st.heap.length
        let heap1 := st.heap ++ [⟨child, none⟩]
        let saved := s1.save_cursor
        match recordName child s1 fuel with
        | .error e => ({ st with heap := heap1, src := s1 }, .error e)
        | .ok (childName, s2) =>
          let s3 := s2.restore_cursor saved
          let st1 : DirSt := { heap := heap1, cache := setAssoc st.cache childName idx,
                               lastCached := .mark s3.pos, src := s3 }
          if childName = name then
            if child.is_directory ≠ 0 then (st1, .ok idx)
            else
              ({ st1 with heap := st1.heap ++ [⟨child, none⟩] }, .ok st1.heap.length)
          else fcLoop name fuel st1 (some childName)

/-- `Record.find_child(name)` (record.py lines 166-191): the cache-hit
fast path returns the cached object itself; otherwise, unless a previous
scan exhausted the directory, scan children from `_last_cached_child`
(or from the top, skipping the current and parent entries, when nothing
was cached yet).  The returned `Nat` is the heap index of the returned
object. -/
def findChild (parent : Record) (st : DirSt) (name : List Byte) (fuel : Nat) :
    DirSt × Except PyErr Nat :=
  match lookupAssoc st.cache name with
  | some i => (st, .ok i)
  | none =>
    if st.lastCached = .exhausted then (st, .error .nameError)
    else if parent.is_directory = 0 then (st, .error .assertionError)
    else
      let s0 := st.src.seek parent.location.toNat parent.length.toNat
      match st.lastCached with
      | .mark (n + 1) =>
        fcLoop name fuel { st with src := { s0 with pos := n + 1 } } none
      | _ =>
        match unpack_record s0 fuel with
        | .error e => ({ st with src := s0 }, .error e)
        | .ok (_, sA) =>
          match unpack_record sA fuel with
          | .error e => ({ st with src := sA }, .error e)
          | .ok (_, sB) => fcLoop name fuel { st with src := sB } none

/-- The `Record.content` property (record.py lines 214-223) on a heap
object: assert the record is not a directory, and on first access seek
the extent, slurp it and store it in the object's `_content`. -/
def contentProp (st : DirSt) (i : Nat) : DirSt × Except PyErr (List Byte) :=
  match st.heap.get? i with
  | none => (st, .error .assertionError)
  | some obj =>
    if obj.record.is_directory ≠ 0 then (st, .error .assertionError)
    else
      match obj.content with
      | some c => (st, .ok c)
      | none =>
        let s1 := st.src.seek obj.record.location.toNat obj.record.length.toNat
        match unpack_all s1 with
        | .error e => ({ st with src := s1 }, .error e)
        | .ok (bytes, s2) =>
          ({ st with heap := st.heap.set i ⟨obj.record, some bytes⟩, src := s2 },
           .ok bytes)

/-! ### Specification-side definitions

These formalize the claims' wording (not the code) and are compared with
the translated definitions above. -/

/-- The flags and `name` attribute of an `NM` entry. -/
def nmExtract : Entry → Option (Nat × Option (List Byte))
  | .NM f n => some (f, n)
  | _ => none

/-- The claim's `NM` reassembly: concatenate successive fragments while
each fragment's `CONTINUE` flag is set, stopping at (and including) the
first fragment with `CONTINUE` clear. -/
def chainConcat : List (Nat × Option (List Byte)) → List Byte
  | [] => []
  | (f, n?) :: rest => n?.getD [] ++ (if f &&& 1 = 0 then [] else chainConcat rest)

/-- The claim's effective name: the `NM` chain if the record carries any
`NM` entry, otherwise `raw_name`. -/
def specName (entries : List Entry) (raw : List Byte) : List Byte :=
  let nms := entries.filterMap nmExtract
  if nms = [] then raw else chainConcat nms

/-- The component-flag/payload well-formedness implicit in serialized
`SL` components: sentinel components (`CURRENT`, `PARENT`, `ROOT`) carry
no payload, payload components carry a nonempty payload of at most 255
bytes. -/
def validComp (c : Nat × List Byte) : Prop :=
  ((c.1 = 2 ∨ c.1 = 4 ∨ c.1 = 8) ∧ c.2 = []) ∨
  ((c.1 = 0 ∨ c.1 = 1) ∧ c.2 ≠ [] ∧ c.2.length ≤ 255)

instance (c : Nat × List Byte) : Decidable (validComp c) := by
  unfold validComp; infer_instance

/-- The text a component contributes: "." for `CURRENT`, ".." for
`PARENT`, nothing for `ROOT`, the payload otherwise. -/
def compText (c : Nat × List Byte) : List Byte :=
  if c.1 = 2 then [46] else if c.1 = 4 then [46, 46] else if c.1 = 8 then [] else c.2

/-- The separator rule the code implements (rockridge.py lines 105-113):
omit the "/" after a component that carries `CONTINUE`, or after a
payload component (`flags = 0`) that is the final component with the
`SL`-level `CONTINUE` bit clear. -/
def specSLPathCode (slflags : Nat) : List (Nat × List Byte) → List Byte
  | [] => []
  | c :: rest =>
    compText c ++
    (if c.1 = 1 then []
     else if c.1 = 0 ∧ rest = [] ∧ slflags &&& 1 = 0 then []
     else [47]) ++
    specSLPathCode slflags rest

/-- The separator rule as the claim states it: omit the "/" after a
component that carries `CONTINUE`, or after the final component of the
final `SL` (the `SL`-level `CONTINUE` bit clear), regardless of the
final component's own flags. -/
def specSLPathClaim (slflags : Nat) : List (Nat × List Byte) → List Byte
  | [] => []
  | c :: rest =>
    compText c ++
    (if c.1 = 1 then []
     else if rest = [] ∧ slflags &&& 1 = 0 then []
     else [47]) ++
    specSLPathClaim slflags rest

/-- On-disc serialization of one `SL` component: flags byte, payload
length byte, payload. -/
def serializeComp (c : Nat × List Byte) : List Byte := c.1 :: c.2.length :: c.2

/-- On-disc serialization of an `SL` component list. -/
def serializeComps (l : List (Nat × List Byte)) : List Byte :=
  (l.map serializeComp).flatten

/-- Claim C1's property of a yielded entry sequence: nothing is yielded
after an `ST`. -/
def stTerminal (l : List Entry) : Prop :=
  ∀ i j, l.get? i = some .ST → i < j → l.get? j = none

instance (l : List Entry) : Decidable (stTerminal l) :=
  decidable_of_iff (∀ i < l.length, l.get? i = some Entry.ST → l.length ≤ i + 1) (by
    constructor
    · intro h i j hi hij
      have hilen : i < l.length := by
        by_contra hc
        rw [List.get?_eq_none.2 (by omega)] at hi
        exact Option.noConfusion hi
      exact List.get?_eq_none.2 (by have := h i hilen hi; omega)
    · intro h i hilen hst
      by_contra hc
      have hnone := h i (i + 1) hst (by omega)
      rw [List.get?_eq_none] at hnone
      omega)

/-- Whether an entry is an `SP`. -/
def isSP : Entry → Bool
  | .SP _ => true
  | _ => false

/-- Whether an entry is an `ER` with a recognized Rock Ridge
`(ext_id, ext_ver)`. -/
def isRecognizedER : Entry → Bool
  | .ER id ver _ _ => decide ((id, ver) ∈ EXT_VERSIONS)
  | _ => false

/-- Claim C7's condition: the chain carries an `SP` entry and an `ER`
entry with a recognized Rock Ridge `(ext_id, ext_ver)`. -/
def claimRockridgeOn (chain : List Entry) : Prop :=
  (∃ e ∈ chain, isSP e = true) ∧ (∃ e ∈ chain, isRecognizedER e = true)

instance (chain : List Entry) : Decidable (claimRockridgeOn chain) := by
  unfold claimRockridgeOn; infer_instance

/-! ### Concrete test images -/

/-- `k` little-endian bytes of `v`. -/
def leBytes : Nat → Nat → List Byte
  | 0, _ => []
  | k + 1, v => (v % 256) :: leBytes k (v / 256)

/-- A both-endian field: `k` little-endian bytes then the same value
big-endian. -/
def bothBytes (k v : Nat) : List Byte := leBytes k v ++ (leBytes k v).reverse

/-- A valid directory-datetime field (1976-01-01 00:00:00 UTC). -/
def dtBytes : List Byte := [76, 1, 1, 0, 0, 0, 0]

/-- The corresponding parsed datetime. -/
def dt0 : DirDatetime := ⟨1976, 1, 1, 0, 0, 0, 0⟩

/-- The body of a directory record (everything after the length byte):
extended-attribute byte, both-endian location and length, datetime,
flags, interleave bytes, both-endian volume sequence, name length, name,
parity pad, then the system-use area. -/
def recBody (loc len flags : Nat) (name sys : List Byte) : List Byte :=
  [0] ++ bothBytes 4 loc ++ bothBytes 4 len ++ dtBytes ++ [flags] ++ [0, 0] ++
  bothBytes 2 1 ++ [name.length] ++ name ++
  (if name.length % 2 = 0 then [0] else []) ++ sys

/-- A full directory record: length byte followed by the body. -/
def recBytes (loc len flags : Nat) (name sys : List Byte) : List Byte :=
  ((recBody loc len flags name sys).length + 1) :: recBody loc len flags name sys

/-- An `SP` entry with `len_skp = 7`. -/
def spBytes : List Byte := [83, 80, 7, 1, 190, 239, 7]

/-- An `ST` entry. -/
def stBytes : List Byte := [83, 84, 4, 1]

/-- An `ER` entry identifying RRIP 1.09 (`ext_id = "RRIP_1991A"`,
`ext_ver = 1`, empty descriptive fields). -/
def erBytes : List Byte := [69, 82, 18, 1, 10, 0, 0, 1] ++ strBytes "RRIP_1991A"

/-- A 7-byte `NM` entry, flags 0, name "ab". -/
def nmAb : List Byte := [78, 77, 7, 1, 0, 97, 98]

/-- A minimal unknown entry with signature "ZZ". -/
def zzBytes : List Byte := [90, 90, 4, 1]

/-- A minimal unknown entry with signature "YY". -/
def yyBytes : List Byte := [89, 89, 4, 1]

/-- A source over a given disc with a fresh (empty) window and the given
`susp_starting_index` and extensions. -/
def mkSource (disc : List Byte) (idx : SuspIdx)
    (exts : List (List Byte × Nat)) : Source :=
  ⟨disc, [], 0, idx, exts, false⟩

/-- The record used to refute claim C1: its embedded SUSP list is
`[CE, ST]`, with the `CE` pointing at sector 0, offset 0, length 4. -/
def c1Rec : Record := ⟨0, 0, dt0, 0, 2, [], [Entry.CE 0 0 4, Entry.ST]⟩

/-- The source for the C1 walk; the disc is the 4-byte continuation
area (one unrecognized "ZZ" entry). -/
def c1Src : Source := mkSource zzBytes .disabled []

/-- The malformed entry used against C3's universal recovery claim:
signature "AA" (not registered), declared length byte 0. -/
def c3Src : Source := { mkSource [] .disabled [] with buf := [65, 65, 0, 1] }

/-- The components of the worked `SL` example:
`[ROOT], [PARENT], ["etc"], ["hosts"]`. -/
def c6Comps : List (Nat × List Byte) :=
  [(8, []), (4, []), (0, strBytes "etc"), (0, strBytes "hosts")]

/-- A source whose window is the serialized example `SL` payload
(flags byte 0, then the components). -/
def c6Src : Source := { mkSource [] .disabled [] with buf := 0 :: serializeComps c6Comps }

/-- The root current-directory record bytes used for C2: its system-use
area is an `SP` with `len_skp = 7` followed by a recognized `ER`. -/
def c2RootBytes : List Byte := recBytes 0 0 2 [0] (spBytes ++ erBytes)

/-- The root record value pointing at `c2RootBytes` (sector 0). -/
def c2Root : Record := ⟨0, c2RootBytes.length, dt0, 0, 2, [], []⟩

/-- A subsequent directory record for C2 whose system-use area starts
with a well-formed 7-byte `NM` entry (name "ab") followed by an `ST`. -/
def c2RecBytes : List Byte := recBytes 0 0 0 [65] (nmAb ++ stBytes)

/-- The root current-directory record bytes used for C7: its system-use
area is two unrecognized 4-byte entries ("ZZ" then "YY"), then an `SP`
with `len_skp = 7`, then a recognized `ER`.  The speculative probe
consumes and discards the "ZZ" entry, so the stored embedded list is
`[Unknown "YY", SP, ER]` — the record carries an `SP`, but not first. -/
def c7RootBytes : List Byte := recBytes 0 0 2 [0] (zzBytes ++ yyBytes ++ spBytes ++ erBytes)

/-- The root record value pointing at `c7RootBytes` (sector 0). -/
def c7Root : Record := ⟨0, c7RootBytes.length, dt0, 0, 2, [], []⟩

/-- The SUSP chain the C7 root record carries. -/
def c7Chain : List Entry :=
  [.Unknown [89, 89] 1 [], .SP 7, .ER (strBytes "RRIP_1991A") 1 [] []]

/-- The parsed C7 root current-directory record. -/
def c7Rec : Record := ⟨0, 0, dt0, 0, 2, [], c7Chain⟩

/-- A record whose first embedded SUSP entry is an `SP` and whose chain
carries a recognized `ER` (used as the C7 witness input). -/
def c7WitRec : Record :=
  ⟨0, 0, dt0, 0, 2, [], [.SP 0, .ER (strBytes "RRIP_1991A") 1 [] []]⟩

/-- `headSP l` is the `len_skp` of the head of `l` when that head is an
`SP` entry. -/
def headSP : List Entry → Option Nat
  | .SP k :: _ => some k
  | _ => none

/-- The current-directory record ("." entry) of the directory fixtures:
a directory record with name byte `0x00` and no system-use area. -/
def dotBytes : List Byte := recBytes 0 2048 2 [0] []

/-- The parent-directory record (".." entry, name byte `0x01`). -/
def dotdotBytes : List Byte := recBytes 0 2048 2 [1] []

/-- A file record named "F;1" (effective name "F") whose extent is the
first 4 bytes of sector 0. -/
def fBytes : List Byte := recBytes 0 4 0 (strBytes "F;1") []

/-- An empty directory extent: only the "." and ".." records. -/
def c8Disc : List Byte := dotBytes ++ dotdotBytes

/-- A directory record spanning exactly `c8Disc` (sector 0). -/
def c8Parent : Record := ⟨0, c8Disc.length, dt0, 0, 2, [], []⟩

/-- A fresh lookup state over the empty directory: no cached children,
`_last_cached_child = None`. -/
def c8St : DirSt := ⟨[], [], .initial, mkSource c8Disc .disabled []⟩

/-- A directory extent holding one scannable child: ".", ".." and the
file "F". -/
def c8bDisc : List Byte := dotBytes ++ dotdotBytes ++ fBytes

/-- A directory record spanning exactly `c8bDisc` (sector 0). -/
def c8bParent : Record := ⟨0, c8bDisc.length, dt0, 0, 2, [], []⟩

/-- A fresh lookup state over the one-child directory. -/
def c8bSt : DirSt := ⟨[], [], .initial, mkSource c8bDisc .disabled []⟩

/-- The effective name of the file child of `c8bDisc`. -/
def fName : List Byte := strBytes "F"

/-! ### Theorems -/

/-- `advance` leaves the buffer unchanged. -/
@[simp] theorem advance_buf (s : Source) (n : Nat) : (s.advance n).buf = s.buf := rfl

/-- `advance` adds to the cursor. -/
@[simp] theorem advance_pos (s : Source) (n : Nat) : (s.advance n).pos = s.pos + n := rfl

/-- `advance` leaves the recognized extensions unchanged. -/
@[simp] theorem advance_exts (s : Source) (n : Nat) :
    (s.advance n).susp_extensions = s.susp_extensions := rfl

/-- `advance` leaves the disc unchanged. -/
@[simp] theorem advance_disc (s : Source) (n : Nat) : (s.advance n).disc = s.disc := rfl

/-- `advance` leaves `susp_starting_index` unchanged. -/
@[simp] theorem advance_idx (s : Source) (n : Nat) :
    (s.advance n).susp_starting_index = s.susp_starting_index := rfl

/-- `advance` leaves the `rockridge` flag unchanged. -/
@[simp] theorem advance_rr (s : Source) (n : Nat) :
    (s.advance n).rockridge = s.rockridge := rfl

/-- Two advances compose. -/
theorem advance_advance (s : Source) (m n : Nat) :
    (s.advance m).advance n = s.advance (m + n) := by
  simp [Source.advance, Nat.add_assoc]

/-- A one-byte read off a known window suffix. -/
theorem unpackB_cons {s : Source} {x : Byte} {t : List Byte}
    (h : s.buf.drop s.pos = x :: t) : unpackB s = .ok (x, s.advance 1) := by
  unfold unpackB; rw [h]

/-- Dropping one more byte off a known window suffix. -/
theorem drop_succ_of_drop_cons {s : Source} {x : Byte} {t : List Byte}
    (h : s.buf.drop s.pos = x :: t) : s.buf.drop (s.pos + 1) = t := by
  rw [← List.drop_drop, h]
  rfl

/-- Reading an exact prefix off a known window suffix. -/
theorem unpack_raw_prefix {s : Source} {pre t : List Byte}
    (h : s.buf.drop s.pos = pre ++ t) :
    unpack_raw s pre.length = .ok (pre, s.advance pre.length) := by
  unfold unpack_raw
  rw [h, if_pos (by simp)]
  congr 2
  simp

/-- An in-bounds raw read returns the corresponding window slice. -/
theorem unpack_raw_ok (s : Source) (n : Nat) (h : s.pos + n ≤ s.buf.length) :
    unpack_raw s n = .ok ((s.buf.drop s.pos).take n, s.advance n) := by
  unfold unpack_raw
  rw [if_pos (by rw [List.length_drop]; omega)]

/-- The 4-byte SUSP header read off a known window suffix. -/
theorem unpack2sBB_cons {s : Source} {a b c d : Byte} {t : List Byte}
    (h : s.buf.drop s.pos = a :: b :: c :: d :: t) :
    unpack2sBB s = .ok (([a, b], c, d), s.advance 4) := by
  unfold unpack2sBB; rw [h]

/-- `unpack_susp` step: `maxlen < 4` returns none with the cursor
unchanged. -/
theorem unpack_susp_skip (s : Source) (maxlen : Int) (h : maxlen < 4) :
    unpack_susp s maxlen = .ok (none, s) := by
  unfold unpack_susp; rw [if_pos h]

/-- `unpack_susp` step: a declared length exceeding `maxlen` rewinds the
4 header bytes and returns none. -/
theorem unpack_susp_rewind {s : Source} {sig : List Byte} {L ver : Nat}
    (maxlen : Int)
    (h2s : unpack2sBB s = .ok ((sig, L, ver), s.advance 4))
    (hm4 : ¬ maxlen < 4) (hmL : maxlen < (L : Int)) :
    unpack_susp s maxlen = .ok (none, s) := by
  have hrw : rewind_raw (s.advance 4) 4 = .ok s := by
    simp only [rewind_raw, Source.advance]
    rw [if_neg (by omega)]
    have hp : s.pos + 4 - 4 = s.pos := by omega
    simp [hp]
  simp only [unpack_susp, if_neg hm4, h2s, if_pos hmL, hrw]

/-- `unpack_susp` step: a typed decode that consumes exactly the declared
length is returned as is. -/
theorem unpack_susp_typed_ok {s : Source} {sig : List Byte} {L ver : Nat}
    (maxlen : Int) {e : Entry} {s2 : Source}
    (h2s : unpack2sBB s = .ok ((sig, L, ver), s.advance 4))
    (hm4 : ¬ maxlen < 4) (hmL : ¬ maxlen < (L : Int))
    (hty : suspEntryUnpack (s.advance 4) (s.susp_extensions.get? 0) sig ver
        ((L : Int) - 4) = .ok (e, s2))
    (hpos : s2.pos = s.pos + L) :
    unpack_susp s maxlen = .ok (some e, s2) := by
  simp only [unpack_susp, if_neg hm4, h2s, if_neg hmL, advance_exts, hty, hpos]
  simp

/-- `unpack_susp` step: a typed decode failing with `SUSPError` (declared
length at least 4, window long enough) falls back to an `UnknownEntry`
holding the raw payload, cursor at `start + length`. -/
theorem unpack_susp_fallback_suspError {s : Source} {sig : List Byte} {L ver : Nat}
    (maxlen : Int)
    (h2s : unpack2sBB s = .ok ((sig, L, ver), s.advance 4))
    (hm4 : ¬ maxlen < 4) (hmL : ¬ maxlen < (L : Int)) (hL4 : 4 ≤ L)
    (hbuf : s.pos + L ≤ s.buf.length)
    (hty : suspEntryUnpack (s.advance 4) (s.susp_extensions.get? 0) sig ver
        ((L : Int) - 4) = .error .suspError) :
    unpack_susp s maxlen
      = .ok (some (.Unknown sig ver ((s.buf.drop (s.pos + 4)).take (L - 4))),
          { s with pos := s.pos + L }) := by
  have htn : ((L : Int) - 4).toNat = L - 4 := by omega
  have hui : unknownInit { s with pos := s.pos + 4 } sig ver ((L : Int) - 4)
      = .ok (.Unknown sig ver ((s.buf.drop (s.pos + 4)).take (L - 4)),
          { s with pos := s.pos + L }) := by
    unfold unknownInit unpack_raw_int
    rw [if_neg (by omega), htn]
    rw [unpack_raw_ok { s with pos := s.pos + 4 } (L - 4)
      (by show s.pos + 4 + (L - 4) ≤ s.buf.length; omega)]
    have hpp : s.pos + 4 + (L - 4) = s.pos + L := by omega
    simp [Source.advance, hpp]
  have hne : ¬ s.pos = s.pos + L := by omega
  simp only [unpack_susp, if_neg hm4, h2s, if_neg hmL, advance_exts, hty]
  simp [hui, hne]

/-- `unpack_susp` step: a typed decode that succeeds but does not leave
the cursor exactly `length` past the entry start is discarded for an
`UnknownEntry` (declared length at least 4, window long enough, buffer
untouched by the typed decode). -/
theorem unpack_susp_fallback_wrongLen {s : Source} {sig : List Byte} {L ver : Nat}
    (maxlen : Int) {e : Entry} {s2 : Source}
    (h2s : unpack2sBB s = .ok ((sig, L, ver), s.advance 4))
    (hm4 : ¬ maxlen < 4) (hmL : ¬ maxlen < (L : Int)) (hL4 : 4 ≤ L)
    (hbuf : s.pos + L ≤ s.buf.length)
    (hty : suspEntryUnpack (s.advance 4) (s.susp_extensions.get? 0) sig ver
        ((L : Int) - 4) = .ok (e, s2))
    (hpos : s2.pos ≠ s.pos + L) (hbuf2 : s2.buf = s.buf) :
    unpack_susp s maxlen
      = .ok (some (.Unknown sig ver ((s.buf.drop (s.pos + 4)).take (L - 4))),
          { s2 with pos := s.pos + L }) := by
  have htn : ((L : Int) - 4).toNat = L - 4 := by omega
  have hui : unknownInit { s2 with pos := s.pos + 4 } sig ver ((L : Int) - 4)
      = .ok (.Unknown sig ver ((s.buf.drop (s.pos + 4)).take (L - 4)),
          { s2 with pos := s.pos + L }) := by
    unfold unknownInit unpack_raw_int
    rw [if_neg (by omega), htn]
    rw [unpack_raw_ok { s2 with pos := s.pos + 4 } (L - 4)
      (by show s.pos + 4 + (L - 4) ≤ s2.buf.length; rw [hbuf2]; omega)]
    have hpp : s.pos + 4 + (L - 4) = s.pos + L := by omega
    simp [Source.advance, hpp, hbuf2]
  simp only [unpack_susp, if_neg hm4, h2s, if_neg hmL, advance_exts, hty]
  simp [hui, hpos]

/-- `NM.__init__` on a flags byte outside `{0, 1, 2, 4}`: it reads its
whole payload and returns an `NM` entry with no `name`. -/
theorem nmInit_unknown_flags {s : Source} {f : Nat} {p t : List Byte}
    (hf0 : f ≠ 0) (hf1 : f ≠ 1) (hf2 : f ≠ 2) (hf4 : f ≠ 4)
    (hdrop : s.buf.drop s.pos = f :: (p ++ t)) :
    nmInit s ((p.length : Int) + 1) = .ok (.NM f none, s.advance (1 + p.length)) := by
  unfold nmInit
  rw [if_pos (by omega)]
  have hd1 : (s.advance 1).buf.drop (s.advance 1).pos = p ++ t := by
    simpa using drop_succ_of_drop_cons hdrop
  have hri : unpack_raw_int (s.advance 1) (p.length : Int)
      = .ok (p, (s.advance 1).advance p.length) := by
    unfold unpack_raw_int
    rw [if_neg (by omega)]
    have h2 : ((p.length : Nat) : Int).toNat = p.length := by omega
    rw [h2]
    exact unpack_raw_prefix hd1
  simp [unpackB_cons hdrop, hri, hf0, hf1, hf2, hf4, advance_advance]


/-- C1, counterexample: on a record whose embedded SUSP list is
`[CE, ST]`, the walk yields the continuation-area entry *after* the
`ST` — the `Terminated` state is not absorbing when a `CE` is pending, so
the claimed property `stTerminal` fails on the yielded sequence. -/
theorem c1_walk_yields_after_st :
    (suspEntriesWalk c1Rec c1Src 20).map Prod.fst
      = .ok [Entry.CE 0 0 4, Entry.ST, Entry.Unknown [90, 90] 1 []] ∧
    ¬ stTerminal [Entry.CE 0 0 4, Entry.ST, Entry.Unknown [90, 90] 1 []] := by
  exact ⟨by decide, by decide⟩

/-- C1, amended: an `ST` clears the embedded iterator and the
continuation target, so the walk state with no pending `CE` yields
nothing further (first conjunct), and a walk that reaches an `ST` in the
embedded list with no pending `CE` ends at that `ST` (second conjunct).
Only a `CE` yielded before the `ST` and not yet followed makes the walk
continue, as the counterexample shows. -/
theorem c1_st_absorbing_without_pending_ce :
    (∀ (fuel : Nat) (s : Source), walkAux fuel s none none none = .ok ([], s)) ∧
    (∀ (fuel : Nat) (rest : List Entry) (t : Option Int) (s : Source),
      walkAux (fuel + 2) s (some (Entry.ST :: rest)) t none = .ok ([Entry.ST], s)) := by
  have habs : ∀ (fuel : Nat) (s : Source), walkAux fuel s none none none = .ok ([], s) := by
    intro fuel s
    cases fuel <;> simp [walkAux, targTruthy]
  refine ⟨habs, ?_⟩
  intro fuel rest t s
  calc walkAux (fuel + 2) s (some (Entry.ST :: rest)) t none
      = (match walkAux (fuel + 1) s none none none with
         | .error er => .error er
         | .ok (tl, s') => .ok (Entry.ST :: tl, s')) := rfl
    _ = .ok ([Entry.ST], s) := by rw [habs]

/-- C3, counterexample: on an entry with declared length 0 and an
unregistered signature, the typed decode fails with `SUSPError`, yet
`unpack_susp` does not return an `UnknownEntry`: the `except` handler
restores the cursor to the entry start, which equals `start + length`,
so the fall-through `if` is skipped and the `return new_susp` line hits
the unassigned `new_susp` — the decode failure propagates as Python's
`UnboundLocalError`. -/
theorem c3_length_zero_propagates :
    suspEntryUnpack (c3Src.advance 4) none [65, 65] 1 (-4) = .error .suspError ∧
    unpack_susp c3Src 4 = .error .nameError := by
  constructor
  · decide
  · decide

/-- C3, amended: `unpack_susp(maxlen)` returns none with the cursor
unchanged when `maxlen < 4`; rewinds the 4 header bytes (cursor back at
the entry start) and returns none when the declared length exceeds
`maxlen`; and — provided the declared length is at least 4 and the
window holds the declared bytes — converts a `SUSPError` from the typed
decode, or a typed decode that does not consume exactly the declared
length, into an `UnknownEntry` preserving the raw payload bytes with the
cursor exactly the declared length past the entry start.  (For a
declared length below 4 the failure escapes instead, per the
counterexample.) -/
theorem unpack_susp_recovery :
    (∀ (s : Source) (maxlen : Int), maxlen < 4 → unpack_susp s maxlen = .ok (none, s)) ∧
    (∀ (s : Source) (maxlen : Int) (sig : List Byte) (L ver : Nat),
      unpack2sBB s = .ok ((sig, L, ver), s.advance 4) → ¬ maxlen < 4 →
      maxlen < (L : Int) →
      unpack_susp s maxlen = .ok (none, s)) ∧
    (∀ (s : Source) (maxlen : Int) (sig : List Byte) (L ver : Nat),
      unpack2sBB s = .ok ((sig, L, ver), s.advance 4) → ¬ maxlen < 4 →
      ¬ maxlen < (L : Int) → 4 ≤ L → s.pos + L ≤ s.buf.length →
      suspEntryUnpack (s.advance 4) (s.susp_extensions.get? 0) sig ver ((L : Int) - 4)
        = .error .suspError →
      unpack_susp s maxlen
        = .ok (some (.Unknown sig ver ((s.buf.drop (s.pos + 4)).take (L - 4))),
            { s with pos := s.pos + L })) ∧
    (∀ (s : Source) (maxlen : Int) (sig : List Byte) (L ver : Nat) (e : Entry)
        (s2 : Source),
      unpack2sBB s = .ok ((sig, L, ver), s.advance 4) → ¬ maxlen < 4 →
      ¬ maxlen < (L : Int) → 4 ≤ L → s.pos + L ≤ s.buf.length →
      suspEntryUnpack (s.advance 4) (s.susp_extensions.get? 0) sig ver ((L : Int) - 4)
        = .ok (e, s2) →
      s2.pos ≠ s.pos + L → s2.buf = s.buf →
      unpack_susp s maxlen
        = .ok (some (.Unknown sig ver ((s.buf.drop (s.pos + 4)).take (L - 4))),
            { s2 with pos := s.pos + L })) := by
  refine ⟨unpack_susp_skip, ?_, ?_, ?_⟩
  · intro s maxlen sig L ver h2s hm4 hmL
    exact unpack_susp_rewind maxlen h2s hm4 hmL
  · intro s maxlen sig L ver h2s hm4 hmL hL4 hbuf hty
    exact unpack_susp_fallback_suspError maxlen h2s hm4 hmL hL4 hbuf hty
  · intro s maxlen sig L ver e s2 h2s hm4 hmL hL4 hbuf hty hpos hbuf2
    exact unpack_susp_fallback_wrongLen maxlen h2s hm4 hmL hL4 hbuf hty hpos hbuf2

/-- C3, witness: a 4-byte entry with unregistered signature "ZZ" makes
the typed decode fail with `SUSPError`, and `unpack_susp` recovers with
an `UnknownEntry` (empty payload), cursor 4 bytes past the start. -/
theorem unpack_susp_recovery_witness :
    unpack_susp { mkSource [] .disabled [] with buf := [90, 90, 4, 1] } 4
      = .ok (some (.Unknown [90, 90] 1 []),
          { mkSource [] .disabled [] with buf := [90, 90, 4, 1], pos := 4 }) := by
  have h := unpack_susp_recovery.2.2.1
    { mkSource [] .disabled [] with buf := [90, 90, 4, 1] } 4 [90, 90] 4 1
    (by decide) (by decide) (by decide) (by decide) (by decide) (by decide)
  simpa using h

/-- C4: `unpack_both` over any single code reads the field twice and
returns the little-endian reading of the first copy exactly when it
equals the big-endian reading of the second copy, raising `SourceError`
otherwise. -/
theorem unpack_both_le_first_be_second (c : SCode) (s : Source)
    (raw : List Byte) (s' : Source)
    (h : unpack_raw s (2 * c.size) = .ok (raw, s')) :
    unpack_both s c =
      if interpLE c (raw.take c.size) = interpBE c ((raw.drop c.size).take c.size)
      then .ok (interpLE c (raw.take c.size), s')
      else .error .sourceError := by
  unfold unpack_both unpackBothRaw
  rw [h]
  by_cases he : interpLE c (raw.take c.size) = interpBE c ((raw.drop c.size).take c.size) <;>
    simp [he]

/-- C4, witness: a 4-byte both-endian field whose halves decode to 1
(little-endian first copy) and 2 (big-endian second copy) raises the
mismatch error even though the little-endian half alone is the valid
value 1. -/
theorem unpack_both_le_first_be_second_witness :
    unpack_both { mkSource [] .disabled [] with buf := [1, 0, 0, 0, 0, 0, 0, 2] } .I
      = .error .sourceError ∧
    interpLE .I [1, 0, 0, 0] = 1 := by
  constructor
  · have h := unpack_both_le_first_be_second .I
      { mkSource [] .disabled [] with buf := [1, 0, 0, 0, 0, 0, 0, 2] }
      [1, 0, 0, 0, 0, 0, 0, 2]
      ({ mkSource [] .disabled [] with buf := [1, 0, 0, 0, 0, 0, 0, 2] }.advance 8)
      (by decide)
    rw [h, if_neg (by decide)]
  · decide

/-- The name loop accumulates exactly the claim's `NM` chain, provided
every `NM` entry in the sequence had its `name` attribute assigned. -/
theorem nameLoop_eq_chain (entries : List Entry) (acc : List Byte)
    (hv : ∀ f n, Entry.NM f n ∈ entries → ∃ nm, n = some nm) :
    nameLoop entries acc = .ok (acc ++ chainConcat (entries.filterMap nmExtract)) := by
  induction entries generalizing acc with
  | nil => simp [nameLoop, chainConcat]
  | cons e rest ih =>
    cases e
    case NM f n =>
      obtain ⟨nm, hnm⟩ := hv f n (by simp)
      subst hnm
      by_cases hf : f &&& 1 = 0
      · simp [nameLoop, hf, nmExtract, chainConcat]
      · simp only [nameLoop, hf, if_neg, nmExtract, List.filterMap_cons, chainConcat]
        rw [ih (acc ++ nm) (fun f' n' h' => hv f' n' (List.mem_cons_of_mem _ h'))]
        simp [chainConcat, hf]
    all_goals
      simpa [nameLoop, nmExtract] using
        ih acc (fun f' n' h' => hv f' n' (List.mem_cons_of_mem _ h'))

/-- C5: given the record's yielded SUSP sequence, `Record.name` is the
concatenation of the successive `NM` fragments, continuing while each
fragment's `CONTINUE` flag is set and stopping at the first fragment
with `CONTINUE` clear, and is `raw_name` when the record carries no `NM`
entry (hypothesis: every carried `NM` has a nonempty assigned name,
which holds for every `NM` the decoder builds). -/
theorem record_name_is_nm_chain (entries : List Entry) (raw : List Byte)
    (hv : ∀ f n, Entry.NM f n ∈ entries → ∃ nm, n = some nm ∧ nm ≠ []) :
    nameFromList entries raw = .ok (specName entries raw) := by
  have h1 := nameLoop_eq_chain entries []
    (fun f n h => (hv f n h).imp fun nm hnm => hnm.1)
  unfold nameFromList specName
  rw [h1]
  simp only [List.nil_append]
  rcases hnms : entries.filterMap nmExtract with _ | ⟨⟨f, n⟩, tl⟩
  · simp [chainConcat]
  · have hmem : (f, n) ∈ entries.filterMap nmExtract := by rw [hnms]; simp
    obtain ⟨e, he, hex⟩ := List.mem_filterMap.1 hmem
    have henm : e = Entry.NM f n := by
      cases e <;> simp [nmExtract] at hex
      simp [hex.1, hex.2]
    obtain ⟨nm, hn, hne⟩ := hv f n (henm ▸ he)
    subst hn
    have hnil : chainConcat ((f, some nm) :: tl) ≠ [] := by
      simp only [chainConcat, Option.getD_some]
      intro h'
      exact hne (List.append_eq_nil.1 h').1
    simp [if_neg hnil]

/-- C5, witness: a record with two `NM` entries, the first with
`CONTINUE` and payload "longfile", the second with no flags and payload
"name.txt", has name "longfilename.txt". -/
theorem record_name_is_nm_chain_witness :
    nameFromList
        [Entry.NM 1 (some (strBytes "longfile")),
         Entry.NM 0 (some (strBytes "name.txt"))] (strBytes "R")
      = .ok (strBytes "longfilename.txt") := by
  have h := record_name_is_nm_chain
    [Entry.NM 1 (some (strBytes "longfile")),
     Entry.NM 0 (some (strBytes "name.txt"))] (strBytes "R")
    (by
      intro f n hmem
      simp only [List.mem_cons, List.not_mem_nil, or_false] at hmem
      rcases hmem with h | h
      · exact ⟨strBytes "longfile", by simp at h; simp [h.2], by decide⟩
      · exact ⟨strBytes "name.txt", by simp at h; simp [h.2], by decide⟩)
  rw [h]
  decide

/-- Serialization of a component list splits off the head. -/
theorem serializeComps_cons (c : Nat × List Byte) (t : List (Nat × List Byte)) :
    serializeComps (c :: t) = serializeComp c ++ serializeComps t := rfl

/-- A serialized component list is at least twice as long as the list. -/
theorem comps_length_le_serialized (l : List (Nat × List Byte)) :
    l.length ≤ (serializeComps l).length := by
  induction l with
  | nil => simp [serializeComps]
  | cons c t ih =>
    rw [serializeComps_cons]
    simp only [List.length_append, List.length_cons, serializeComp]
    omega

/-- The serialized tail is empty exactly when the tail is. -/
theorem serializeComps_len_zero {l : List (Nat × List Byte)} :
    (serializeComps l).length = 0 ↔ l = [] := by
  cases l with
  | nil => simp [serializeComps]
  | cons c t =>
    rw [serializeComps_cons]
    simp [serializeComp]

/-- The `SL` component loop over a serialized, well-formed component
list builds exactly the code's separator-rule path (`specSLPathCode`)
and consumes exactly the serialized bytes. -/
theorem slCompLoop_serialized (comps : List (Nat × List Byte)) :
    ∀ (fuel : Nat) (s : Source) (slflags : Nat) (path rest0 : List Byte),
    (∀ c ∈ comps, validComp c) →
    comps.length ≤ fuel →
    s.buf.drop s.pos = serializeComps comps ++ rest0 →
    slCompLoop fuel s ((s.pos : Int) + (serializeComps comps).length) slflags path
      = .ok (path ++ specSLPathCode slflags comps,
             s.advance (serializeComps comps).length) := by
  induction comps with
  | nil =>
    intro fuel s slflags path rest0 _ _ _
    cases fuel with
    | zero =>
      rw [slCompLoop]
      rw [if_neg (show ¬ ((s.pos : Int) <
          (s.pos : Int) + ((serializeComps ([] : List (Nat × List Byte))).length : Int)) by
        simp [serializeComps])]
      simp [serializeComps, specSLPathCode, Source.advance]
    | succ fuel =>
      rw [slCompLoop]
      rw [if_neg (show ¬ ((s.pos : Int) <
          (s.pos : Int) + ((serializeComps ([] : List (Nat × List Byte))).length : Int)) by
        simp [serializeComps])]
      simp [serializeComps, specSLPathCode, Source.advance]
  | cons c t ih =>
    intro fuel s slflags path rest0 hv hfuel hdrop
    obtain ⟨cf, cc⟩ := c
    have hdrop1 : s.buf.drop s.pos
        = cf :: (cc.length :: (cc ++ (serializeComps t ++ rest0))) := by
      simpa [serializeComps_cons, serializeComp, List.append_assoc] using hdrop
    have hlen : (serializeComps ((cf, cc) :: t)).length
        = 2 + cc.length + (serializeComps t).length := by
      rw [serializeComps_cons]
      simp [serializeComp]
      omega
    cases fuel with
    | zero => simp [List.length_cons] at hfuel
    | succ fuel =>
      rw [slCompLoop]
      rw [if_pos (show (s.pos : Int) <
          (s.pos : Int) + ((serializeComps ((cf, cc) :: t)).length : Int) by
        rw [hlen]; push_cast; omega)]
      have hdrop2 : (s.advance 1).buf.drop (s.advance 1).pos
          = cc.length :: (cc ++ (serializeComps t ++ rest0)) := by
        simpa using drop_succ_of_drop_cons hdrop1
      have hdrop3 : ((s.advance 1).advance 1).buf.drop ((s.advance 1).advance 1).pos
          = cc ++ (serializeComps t ++ rest0) := by
        simpa using drop_succ_of_drop_cons hdrop2
      simp only [unpackB_cons hdrop1, unpackB_cons hdrop2, unpack_raw_prefix hdrop3]
      set s3 : Source := (((s.advance 1).advance 1).advance cc.length) with hs3
      have hs3pos : s3.pos = s.pos + 2 + cc.length := by
        rw [hs3]
        show s.pos + 1 + 1 + cc.length = s.pos + 2 + cc.length
        omega
      have hs3buf : s3.buf = s.buf := by rw [hs3]; simp
      rw [if_pos (show (s3.pos : Int) ≤
          (s.pos : Int) + ((serializeComps ((cf, cc) :: t)).length : Int) by
        rw [hs3pos, hlen]; push_cast; omega)]
      have hs3drop : s3.buf.drop s3.pos = serializeComps t ++ rest0 := by
        rw [hs3buf, hs3pos]
        have h1 : s.pos + 2 + cc.length = s.pos + 1 + 1 + cc.length := by omega
        rw [h1, ← List.drop_drop, ← List.drop_drop, ← List.drop_drop, hdrop1]
        simp [List.drop_left]
      have hlast : ((s3.pos : Int)
            = (s.pos : Int) + ((serializeComps ((cf, cc) :: t)).length : Int))
          ↔ t = [] := by
        rw [hs3pos, hlen]
        push_cast
        constructor
        · intro h
          exact serializeComps_len_zero.1 (by omega)
        · intro h
          subst h
          simp only [serializeComps, List.map_nil, List.flatten_nil, List.length_nil]
          push_cast
          omega
      have htarget : (s.pos : Int) + ((serializeComps ((cf, cc) :: t)).length : Int)
          = (s3.pos : Int) + ((serializeComps t).length : Int) := by
        rw [hs3pos, hlen]; push_cast; ring
      have hsadv : s3.advance (serializeComps t).length
          = s.advance (serializeComps ((cf, cc) :: t)).length := by
        rw [hs3, advance_advance, advance_advance, advance_advance, hlen]
        congr 1
        omega
      have hrec : ∀ path2 : List Byte,
          slCompLoop fuel s3 ((s3.pos : Int) + ((serializeComps t).length : Int))
            slflags path2
          = .ok (path2 ++ specSLPathCode slflags t,
                 s.advance (serializeComps ((cf, cc) :: t)).length) := by
        intro path2
        rw [ih fuel s3 slflags path2 rest0
          (fun c' hc' => hv c' (List.mem_cons_of_mem _ hc'))
          (by simpa using Nat.le_of_succ_le_succ (by simpa [List.length_cons] using hfuel))
          hs3drop]
        rw [hsadv]
      have hvc := hv (cf, cc) (List.mem_cons_self _ _)
      rcases hvc with ⟨hf, hcc⟩ | ⟨hf, hcc, _⟩
      · -- sentinel components: CURRENT / PARENT / ROOT, empty payload
        subst hcc
        rcases hf with hf | hf | hf <;> subst hf
        · -- CURRENT: append "."
          have hcls : slClassify path 2 ([] : List Byte).length []
              = .ok (path ++ [46]) := by
            simp [slClassify]
          have hsep : slSep (path ++ [46]) 2 s3.pos
              ((s.pos : Int) + ((serializeComps ((2, ([] : List Byte)) :: t)).length : Int))
              slflags = (path ++ [46]) ++ [47] := by
            simp [slSep]
          simp only [hcls, hsep]
          rw [htarget, hrec]
          simp [specSLPathCode, compText, List.append_assoc]
        · -- PARENT: append ".."
          have hcls : slClassify path 4 ([] : List Byte).length []
              = .ok (path ++ [46, 46]) := by
            simp [slClassify]
          have hsep : slSep (path ++ [46, 46]) 4 s3.pos
              ((s.pos : Int) + ((serializeComps ((4, ([] : List Byte)) :: t)).length : Int))
              slflags = (path ++ [46, 46]) ++ [47] := by
            simp [slSep]
          simp only [hcls, hsep]
          rw [htarget, hrec]
          simp [specSLPathCode, compText, List.append_assoc]
        · -- ROOT: append nothing
          have hcls : slClassify path 8 ([] : List Byte).length [] = .ok path := by
            simp [slClassify]
          have hsep : slSep path 8 s3.pos
              ((s.pos : Int) + ((serializeComps ((8, ([] : List Byte)) :: t)).length : Int))
              slflags = path ++ [47] := by
            simp [slSep]
          simp only [hcls, hsep]
          rw [htarget, hrec]
          simp [specSLPathCode, compText, List.append_assoc]
      · -- payload components: flags 0 or CONTINUE, nonempty payload
        have hccpos : 0 < cc.length := List.length_pos.2 hcc
        rcases hf with hf | hf <;> subst hf
        · -- flags 0: the separator is omitted iff this is the last
          -- component and the SL-level CONTINUE bit is clear
          have hcls : slClassify path 0 cc.length cc = .ok (path ++ cc) := by
            simp [slClassify, hccpos]
          simp only [hcls]
          by_cases hl : (s3.pos : Int)
              = (s.pos : Int) + ((serializeComps ((0, cc) :: t)).length : Int)
          · have ht : t = [] := hlast.1 hl
            subst ht
            by_cases hsl : slflags &&& 1 = 0
            · have hsep : slSep (path ++ cc) 0 s3.pos
                  ((s.pos : Int) + ((serializeComps [(0, cc)]).length : Int)) slflags
                  = path ++ cc := by
                unfold slSep
                rw [if_neg (by omega : ¬ (0 : Nat) = 1), if_pos ⟨rfl, hl, hsl⟩]
              have hsl2 : slflags % 2 = 0 := by rw [← Nat.and_one_is_mod]; exact hsl
              simp only [hsep]
              rw [htarget, hrec]
              simp [specSLPathCode, compText, hsl2, List.append_assoc]
            · have hsep : slSep (path ++ cc) 0 s3.pos
                  ((s.pos : Int) + ((serializeComps [(0, cc)]).length : Int)) slflags
                  = (path ++ cc) ++ [47] := by
                unfold slSep
                rw [if_neg (by omega : ¬ (0 : Nat) = 1), if_neg (fun h => hsl h.2.2)]
              have hsl2 : ¬ slflags % 2 = 0 := by rw [← Nat.and_one_is_mod]; exact hsl
              simp only [hsep]
              rw [htarget, hrec]
              simp [specSLPathCode, compText, hsl2, List.append_assoc]
          · have ht : t ≠ [] := fun h => hl (hlast.2 h)
            have hsep : slSep (path ++ cc) 0 s3.pos
                ((s.pos : Int) + ((serializeComps ((0, cc) :: t)).length : Int)) slflags
                = (path ++ cc) ++ [47] := by
              unfold slSep
              rw [if_neg (by omega : ¬ (0 : Nat) = 1), if_neg (fun h => hl h.2.1)]
            simp only [hsep]
            rw [htarget, hrec]
            simp [specSLPathCode, compText, ht, List.append_assoc]
        · -- flags CONTINUE: no separator
          have hcls : slClassify path 1 cc.length cc = .ok (path ++ cc) := by
            simp [slClassify, hccpos]
          have hsep : slSep (path ++ cc) 1 s3.pos
              ((s.pos : Int) + ((serializeComps ((1, cc) :: t)).length : Int)) slflags
              = path ++ cc := by
            simp [slSep]
          simp only [hcls, hsep]
          rw [htarget, hrec]
          simp [specSLPathCode, compText, List.append_assoc]

/-- C6, amended: decoding a serialized `SL` entry (well-formed, nonempty
component list) reconstructs the path with "." for `CURRENT`, ".." for
`PARENT`, nothing for `ROOT` and the payload bytes for flags 0 or
`CONTINUE`, and appends "/" after each component unless the component
carries `CONTINUE`, or it is a payload component with flags 0 that is
the final component while the `SL`-level `CONTINUE` bit is clear — a
final `CURRENT`/`PARENT`/`ROOT` component still gets the trailing "/",
unlike the claim's rule (see the counterexample). -/
theorem slInit_serialized (slflags : Nat) (comps : List (Nat × List Byte))
    (s : Source) (rest0 : List Byte)
    (hne : comps ≠ []) (hv : ∀ c ∈ comps, validComp c)
    (hdrop : s.buf.drop s.pos = slflags :: (serializeComps comps ++ rest0)) :
    slInit s ((1 + (serializeComps comps).length : Nat) : Int)
      = .ok (.SL slflags (specSLPathCode slflags comps),
             s.advance (1 + (serializeComps comps).length)) := by
  have hlen2 : 2 ≤ (serializeComps comps).length := by
    cases comps with
    | nil => exact absurd rfl hne
    | cons c t =>
      rw [serializeComps_cons]
      simp only [List.length_append, serializeComp, List.length_cons]
      omega
  unfold slInit
  rw [if_pos (by push_cast; omega)]
  have hd1 : (s.advance 1).buf.drop (s.advance 1).pos
      = serializeComps comps ++ rest0 := by
    simpa using drop_succ_of_drop_cons hdrop
  have hfuel : comps.length
      ≤ ((1 + (serializeComps comps).length : Nat) : Int).toNat + 1 := by
    have := comps_length_le_serialized comps
    omega
  have hloop := slCompLoop_serialized comps
    (((1 + (serializeComps comps).length : Nat) : Int).toNat + 1)
    (s.advance 1) slflags [] rest0 hv hfuel hd1
  have htgt : (s.pos : Int) + ((1 + (serializeComps comps).length : Nat) : Int)
      = ((s.advance 1).pos : Int) + ((serializeComps comps).length : Int) := by
    simp [Source.advance]
    ring
  simp only [unpackB_cons hdrop, htgt, hloop, advance_advance]
  simp

/-- C6, witness: the `SL` with components
`[ROOT], [PARENT], ["etc"], ["hosts"]` and clear flags decodes to the
path "/../etc/hosts". -/
theorem slInit_serialized_witness :
    slInit c6Src 17 = .ok (.SL 0 (strBytes "/../etc/hosts"), c6Src.advance 17) := by
  have h := slInit_serialized 0 c6Comps c6Src [] (by decide) (by decide) (by decide)
  rw [show (17 : Int) = ((1 + (serializeComps c6Comps).length : Nat) : Int) from by decide]
  rw [h]
  decide

/-- C6, counterexample: an `SL` whose single component is `ROOT` (flags
8) with the `SL`-level `CONTINUE` bit clear.  The claim's separator rule
omits the "/" after the final component of the final `SL`, predicting
the empty path; the code only omits it for components with flags 0, so
the decoder produces "/". -/
theorem c6_final_root_keeps_slash :
    ([0, 8, 0] : List Byte) = 0 :: (serializeComps [(8, [])] ++ []) ∧
    slInit { mkSource [] .disabled [] with buf := [0, 8, 0] } 3
      = .ok (.SL 0 [47],
          { mkSource [] .disabled [] with buf := [0, 8, 0], pos := 3 }) ∧
    specSLPathClaim 0 [(8, [])] = [] ∧
    specSLPathCode 0 [(8, [])] = [47] := by
  refine ⟨by decide, by decide, by decide, by decide⟩

/-- With `susp_starting_index = skip 7`, the system-use-area parse
consumes exactly 7 prefix bytes — whatever they are — before decoding
SUSP entries; here the area is 7 junk bytes followed by an `ST`. -/
theorem recordSystemArea_skip7 (junk rest : List Byte) (s : Source) (fuel : Nat)
    (hj : junk.length = 7)
    (hdrop : s.buf.drop s.pos = junk ++ (stBytes ++ rest)) :
    recordSystemArea s (s.pos + 11) (.skip 7) (fuel + 1)
      = .ok ([Entry.ST], s.advance 11) := by
  have hskip : unpack_raw s 7 = .ok (junk, s.advance 7) := by
    have h := unpack_raw_prefix hdrop
    rw [hj] at h
    exact h
  have hd7 : (s.advance 7).buf.drop (s.advance 7).pos
      = 83 :: 84 :: 4 :: 1 :: rest := by
    show s.buf.drop (s.pos + 7) = 83 :: 84 :: 4 :: 1 :: rest
    rw [← hj, ← List.drop_drop, hdrop, List.drop_left]
    rfl
  have hst : unpack_susp (s.advance 7)
        (((s.pos + 11 : Nat) : Int) - (((s.advance 7).pos : Nat) : Int))
      = .ok (some .ST, (s.advance 7).advance 4) := by
    have h2s := unpack2sBB_cons hd7
    have hty : suspEntryUnpack ((s.advance 7).advance 4)
        ((s.advance 7).susp_extensions.get? 0) [83, 84] 1 (((4 : Nat) : Int) - 4)
        = .ok (Entry.ST, (s.advance 7).advance 4) := rfl
    exact unpack_susp_typed_ok _ h2s
      (by simp only [advance_pos]; push_cast; omega)
      (by simp only [advance_pos]; push_cast; omega) hty (by simp)
  calc recordSystemArea s (s.pos + 11) (.skip 7) (fuel + 1)
      = (match (match unpack_raw s 7 with
                | Except.error e => (Except.error e : Except PyErr Source)
                | Except.ok (_, s') => Except.ok s') with
         | Except.error e => (Except.error e : Except PyErr (List Entry × Source))
         | Except.ok s1 => suspLoop (fuel + 1) s1 (s.pos + 11) []) := rfl
    _ = suspLoop (fuel + 1) (s.advance 7) (s.pos + 11) [] := by
        simp only [hskip]
    _ = .ok ([Entry.ST], s.advance 11) := by
        rw [suspLoop]
        simp only [hst]
        simp [advance_advance]

/-- C2, amended: with SUSP active and the root's `SP` declaring
`len_skp = 7`, `ISO.__init__` sets `susp_starting_index` to the raw
`len_skp` (7, not `len_skp - 7 = 0`), and the system-use-area parse of
every subsequent record then consumes exactly 7 prefix bytes before
decoding SUSP entries. -/
theorem c2_subsequent_records_skip_seven :
    (isoDetect c2Root (mkSource c2RootBytes .unknown []) 40).map Source.susp_starting_index
      = .ok (.skip 7) ∧
    (∀ (junk rest : List Byte) (s : Source) (fuel : Nat),
      junk.length = 7 →
      s.buf.drop s.pos = junk ++ (stBytes ++ rest) →
      recordSystemArea s (s.pos + 11) (.skip 7) (fuel + 1)
        = .ok ([Entry.ST], s.advance 11)) := by
  exact ⟨by decide, fun junk rest s fuel hj hdrop =>
    recordSystemArea_skip7 junk rest s fuel hj hdrop⟩

/-- C2, witness: the 7 skipped prefix bytes can themselves be a
well-formed `NM` entry — it is consumed as the skip prefix and only the
`ST` behind it is decoded. -/
theorem c2_subsequent_records_skip_seven_witness :
    recordSystemArea { mkSource [] (.skip 7) [RRIP_109] with buf := nmAb ++ stBytes }
        11 (.skip 7) 20
      = .ok ([Entry.ST],
          { mkSource [] (.skip 7) [RRIP_109] with buf := nmAb ++ stBytes, pos := 11 }) := by
  have h := c2_subsequent_records_skip_seven.2 nmAb []
    { mkSource [] (.skip 7) [RRIP_109] with buf := nmAb ++ stBytes } 19
    (by decide) (by decide)
  simpa using h

/-- C2, counterexample: the facade sets `susp_starting_index = 7` for a
root `SP` with `len_skp = 7`, and the subsequent record — whose
system-use area starts with a 7-byte `NM` entry at offset 0 — parses to
`[ST]` under that index: the 7-byte prefix (the whole `NM` entry) was
consumed, whereas the claimed zero-length skip would have produced
`[NM "ab", ST]`. -/
theorem c2_zero_skip_refuted :
    (isoDetect c2Root (mkSource c2RootBytes .unknown []) 40).map Source.susp_starting_index
      = .ok (.skip 7) ∧
    (unpack_record { mkSource [] (.skip 7) [RRIP_109] with buf := c2RecBytes } 40).map
        (fun p => p.1.map Record.embedded_susp_entries)
      = .ok (some [Entry.ST]) ∧
    (unpack_record { mkSource [] (.skip 0) [RRIP_109] with buf := c2RecBytes } 40).map
        (fun p => p.1.map Record.embedded_susp_entries)
      = .ok (some [Entry.NM 0 (some [97, 98]), Entry.ST]) ∧
    ([Entry.ST] : List Entry) ≠ [Entry.NM 0 (some [97, 98]), Entry.ST] := by
  refine ⟨by decide, by decide, by decide, by decide⟩

/-- Filtering the `ER` identifications and checking for a recognized one
is the same as scanning the chain for a recognized `ER` entry. -/
theorem any_erExtract_recognized (l : List Entry) :
    (l.filterMap erExtract).any (· ∈ EXT_VERSIONS) = l.any isRecognizedER := by
  induction l with
  | nil => rfl
  | cons e t ih =>
    cases e <;> simp [erExtract, isRecognizedER, ih]

/-- C7, amended: after `ISO.__init__`'s detection, `rockridge` is true
iff the root current-directory record's *first embedded* SUSP entry is
an `SP` and the record's full SUSP chain carries an `ER` whose
`(ext_id, ext_ver)` is recognized; when the first embedded entry is not
an `SP`, `susp_starting_index` becomes disabled and `rockridge` keeps
its initial value (false). -/
theorem rockridge_first_sp_and_recognized_er :
    (∀ (rr : Record) (s : Source) (fuel : Nat),
      headSP rr.embedded_susp_entries = none →
      isoDetectCore rr s fuel = .ok { s with susp_starting_index := .disabled }) ∧
    (∀ (rr : Record) (s : Source) (fuel : Nat) (k : Nat) (tail l : List Entry)
        (s1 : Source),
      rr.embedded_susp_entries = Entry.SP k :: tail →
      suspEntriesWalk rr { s with susp_starting_index := .skip k } fuel = .ok (l, s1) →
      isoDetectCore rr s fuel
        = .ok { s1 with
            susp_extensions := l.filterMap erExtract,
            rockridge := s1.rockridge || l.any isRecognizedER }) := by
  constructor
  · intro rr s fuel h
    unfold isoDetectCore
    cases hemb : rr.embedded_susp_entries with
    | nil => rfl
    | cons e tail =>
      cases e
      case SP k =>
        rw [hemb] at h
        exact absurd h (by simp [headSP])
      all_goals rfl
  · intro rr s fuel k tail l s1 hemb hwalk
    unfold isoDetectCore
    rw [hemb]
    simp only [hwalk, any_erExtract_recognized]
    by_cases hany : l.any isRecognizedER
    · simp [hany]
    · simp [hany]

/-- C7, witness: a record whose first embedded entry is an `SP` and
whose chain carries a recognized `ER` turns `rockridge` on. -/
theorem rockridge_first_sp_and_recognized_er_witness :
    (isoDetectCore c7WitRec (mkSource [] .disabled []) 10).map Source.rockridge
      = .ok true := by
  have h := rockridge_first_sp_and_recognized_er.2 c7WitRec (mkSource [] .disabled [])
    10 0 [.ER (strBytes "RRIP_1991A") 1 [] []]
    [.SP 0, .ER (strBytes "RRIP_1991A") 1 [] []]
    { mkSource [] .disabled [] with susp_starting_index := .skip 0 }
    (by decide) (by decide)
  rw [h]
  decide

/-- C7, counterexample: a root current-directory record that *carries*
an `SP` (second embedded position; an unrecognized first on-disc entry
was consumed by the speculative probe) and a recognized `ER` in its
chain, yet `rockridge` stays false and SUSP is disabled because the
first *embedded* entry is not the `SP`. -/
theorem c7_sp_not_first_rockridge_false :
    (currentDirectory c7Root (mkSource c7RootBytes .unknown []) 40).map (fun p => p.1)
      = .ok (some c7Rec) ∧
    (suspEntriesWalk c7Rec (mkSource c7RootBytes .unknown []) 40).map Prod.fst
      = .ok c7Chain ∧
    claimRockridgeOn c7Chain ∧
    (isoDetect c7Root (mkSource c7RootBytes .unknown []) 40).map
        (fun s' => (s'.rockridge, s'.susp_starting_index))
      = .ok (false, .disabled) := by
  refine ⟨by decide, by decide, by decide, by decide⟩

/-- C10: an `NM` entry whose flags byte is none of
`{0, CONTINUE, CURRENT, PARENT}` decodes without any SUSP error — it
consumes exactly its declared length, so `unpack_susp` returns the `NM`
entry itself, not an `UnknownEntry` — but its `name` attribute is never
assigned, and the `Record.name` loop on any record carrying it then
fails with `AttributeError` rather than any decode error. -/
theorem nm_unknown_flags_attribute_error (f : Nat) (p : List Byte)
    (rest : List Entry) (raw : List Byte)
    (hf : f ≠ 0 ∧ f ≠ 1 ∧ f ≠ 2 ∧ f ≠ 4) (hp : p.length ≤ 250) :
    unpack_susp
        { mkSource [] .disabled [RRIP_109] with
            buf := 78 :: 77 :: (p.length + 5) :: 1 :: f :: p }
        ((p.length : Int) + 5)
      = .ok (some (.NM f none),
          { mkSource [] .disabled [RRIP_109] with
              buf := 78 :: 77 :: (p.length + 5) :: 1 :: f :: p,
              pos := p.length + 5 }) ∧
    nameFromList (Entry.NM f none :: rest) raw = .error .attributeError := by
  obtain ⟨hf0, hf1, hf2, hf4⟩ := hf
  constructor
  · set s0 : Source :=
      { mkSource [] .disabled [RRIP_109] with
          buf := 78 :: 77 :: (p.length + 5) :: 1 :: f :: p } with hs0
    have hdrop0 : s0.buf.drop s0.pos = 78 :: 77 :: (p.length + 5) :: 1 :: f :: p := rfl
    have h2s := unpack2sBB_cons hdrop0
    have hdrop4 : (s0.advance 4).buf.drop (s0.advance 4).pos = f :: (p ++ []) := by
      simp [hs0, Source.advance, mkSource]
    have hnm := nmInit_unknown_flags hf0 hf1 hf2 hf4 hdrop4
    have hlen : (((p.length + 5 : Nat)) : Int) - 4 = (p.length : Int) + 1 := by
      push_cast; ring
    have hty : suspEntryUnpack (s0.advance 4) (s0.susp_extensions.get? 0)
        [78, 77] 1 (((p.length + 5 : Nat) : Int) - 4)
        = .ok (.NM f none, (s0.advance 4).advance (1 + p.length)) := by
      have hdis : suspEntryUnpack (s0.advance 4) (s0.susp_extensions.get? 0)
          [78, 77] 1 (((p.length + 5 : Nat) : Int) - 4)
          = nmInit (s0.advance 4) (((p.length + 5 : Nat) : Int) - 4) := rfl
      rw [hdis, hlen, hnm]
    have hres := unpack_susp_typed_ok ((p.length : Int) + 5) h2s (by omega)
      (by push_cast; omega) hty (by simp [Source.advance]; omega)
    rw [hres]
    congr 1
    rw [advance_advance]
    simp [Source.advance, hs0, mkSource]
    omega
  · rfl

/-- C10, witness: the entry `NM` flags 3 (`CONTINUE|CURRENT`), payload
"a": the decode returns the `NM` entry with no name, and the name loop
fails with `AttributeError`. -/
theorem nm_unknown_flags_attribute_error_witness :
    unpack_susp { mkSource [] .disabled [RRIP_109] with buf := [78, 77, 6, 1, 3, 97] } 6
      = .ok (some (.NM 3 none),
          { mkSource [] .disabled [RRIP_109] with
              buf := [78, 77, 6, 1, 3, 97], pos := 6 }) ∧
    nameFromList [Entry.NM 3 none] [70] = .error .attributeError := by
  have h := nm_unknown_flags_attribute_error 3 [97] [] [70] (by decide) (by decide)
  exact ⟨by simpa using h.1, h.2⟩

/-- C8: a `find_child` miss is claimed to always surface the not-found
error (`KeyError`), including on a directory with no scannable children
and after a previous scan exhausted the directory.  In the code the
`raise KeyError(... % (child_name, ...))` line references `child_name`,
which is only bound inside the scan loop, so exactly those two cases
raise `UnboundLocalError` instead (embedded as `nameError`): an empty
directory miss, and a second miss after the exhausting scan.  Only the
middle case — a miss on a call that scanned at least one child — reaches
the claimed `KeyError`. -/
theorem find_child_miss_unbound_name :
    (findChild c8Parent c8St (strBytes "X") 40).2 = .error .nameError ∧
    (findChild c8bParent c8bSt (strBytes "X") 40).2 = .error .keyError ∧
    (findChild c8bParent (findChild c8bParent c8bSt (strBytes "X") 40).1
        (strBytes "Y") 40).2 = .error .nameError := by
  decide

/-- C9: the claim says every successful `find_child` of a non-directory
child — including a cache hit — returns a copy distinct from the cached
record, so a later `.content` read leaves the cached record's `_content`
unpopulated.  The first lookup of "F" does return a fresh copy (heap
index 1, while the cache maps "F" to index 0) and reading that copy's
content leaves the cached object's `_content` at `None`; but the
cache-hit path (record.py line 172) returns the cached object itself
(index 0), and reading its content populates the cached `_content` —
refuting the claim for repeated lookups. -/
theorem find_child_cache_hit_uncopied :
    (findChild c8bParent c8bSt fName 40).2 = .ok 1 ∧
    lookupAssoc (findChild c8bParent c8bSt fName 40).1.cache fName = some 0 ∧
    ((contentProp (findChild c8bParent c8bSt fName 40).1 1).1.heap.get? 0).map
        RecObj.content = some none ∧
    (findChild c8bParent (contentProp (findChild c8bParent c8bSt fName 40).1 1).1
        fName 40).2 = .ok 0 ∧
    ((contentProp (findChild c8bParent (contentProp
        (findChild c8bParent c8bSt fName 40).1 1).1 fName 40).1 0).1.heap.get? 0).map
        RecObj.content = some (some [34, 0, 0, 0]) := by
  decide

end Isoparser
